import Mathlib

/-!
# biped.c: posture model, mirror transform, gait authoring and walking sequencer

A shallow embedding of `src/biped.c`.

* A C `int` is a 32-bit two's-complement integer: `CInt` carries its range, and
  every arithmetic operation wraps modulo `2^32`.
* A `Posture` is the C struct: 23 angle slots, a speed and a hold duration.
* Functions that take `Posture*` arguments are state transformers on a memory
  `Mem` of posture objects; a pointer is the address of an object, so that a call
  whose two pointer arguments are equal is the aliased call of the C program.
* The calls into the bus library are recorded as events; what the library answers is
  an input of the model.
* The functions that index `positions` are given a second time with every index
  checked against the array, to state that no access leaves it.
* `deg2pulse` computes in floating point: floating values are the rationals they stand
  for, the roundings of the platform are parameters, and a conversion to `int` of a value
  outside the range of `int` has no result.
-/

namespace Biped

/-! ## C integers -/

def INT_MIN : Int := -2147483648

def INT_MAX : Int := 2147483647

/-- A value of the C type `int` (32 bits, two's complement). -/
structure CInt where
  val : Int
  inRange : INT_MIN ≤ val ∧ val ≤ INT_MAX

instance : DecidableEq CInt := fun x y =>
  decidable_of_iff (x.val = y.val)
    ⟨fun h => by cases x; cases y; cases h; rfl, fun h => by rw [h]⟩

/-- Reduction of a mathematical integer to the `int` with the same residue modulo `2^32`. -/
def wrap_int (x : Int) : CInt :=
  ⟨(x + 2147483648) % 4294967296 - 2147483648, by unfold INT_MIN INT_MAX; omega⟩

/-- An integer constant of the program text. -/
def CInt.lit (n : Int) : CInt := wrap_int n

/-- Unary minus of C on `int`. -/
def CInt.neg (x : CInt) : CInt := wrap_int (-x.val)

/-- Addition of C on `int`. -/
def CInt.add (x y : CInt) : CInt := wrap_int (x.val + y.val)

/-- Multiplication of C on `int`. -/
def CInt.mul (x y : CInt) : CInt := wrap_int (x.val * y.val)

/-- The remainder operator `%` of C on `int`: the quotient truncates toward zero. -/
def CInt.rem (x y : CInt) : CInt := wrap_int (Int.tmod x.val y.val)

/-! ## Postures and the memory they live in -/

/-- The macro `MAX_SERVO_ID`: the number of slots of `positions`. -/
abbrev MAX_SERVO_ID : Nat := 23

/-- The struct `Posture`. -/
structure Posture where
  positions : Fin MAX_SERVO_ID → CInt
  speed : CInt
  wait_time_ms : CInt

/-- The read `p.positions[i]`. An index outside the array is outside the model (it reads 0). -/
def Posture.get (p : Posture) (i : Nat) : CInt :=
  if h : i < MAX_SERVO_ID then p.positions ⟨i, h⟩ else CInt.lit 0

/-- The write `p.positions[i] = v`. An index outside the array is outside the model
(the write is dropped). -/
def Posture.set (p : Posture) (i : Nat) (v : CInt) : Posture :=
  { p with positions := fun j => if j.val = i then v else p.positions j }

/-- The posture objects of the program, by address. A `Posture*` is an address. -/
abbrev Mem := Nat → Posture

/-- The assignment `*p = v` of a whole struct. -/
def Mem.store (m : Mem) (p : Nat) (v : Posture) : Mem := Function.update m p v

/-- The assignment `p->positions[i] = v`. -/
def Mem.setPos (m : Mem) (p : Nat) (i : Nat) (v : CInt) : Mem :=
  Function.update m p ((m p).set i v)

/-- The assignment `p->speed = v`. -/
def Mem.setSpeed (m : Mem) (p : Nat) (v : CInt) : Mem :=
  Function.update m p { m p with speed := v }

/-- The assignment `p->wait_time_ms = v`. -/
def Mem.setWait (m : Mem) (p : Nat) (v : CInt) : Mem :=
  Function.update m p { m p with wait_time_ms := v }

/-! ## mirror_posture -/

/-- One iteration of the loop of `mirror_posture`, for loop variable `i`: the two
assignments in program order, each reading `a` in the memory left by the one before. -/
def mirror_body (a b : Nat) (m : Mem) (i : Nat) : Mem :=
  let left_id := 2 * i - 1
  let right_id := 2 * i
  let m1 := m.setPos b left_id ((m a).get right_id).neg
  m1.setPos b right_id ((m1 a).get left_id).neg

/-- The function `mirror_posture(const Posture *a, Posture *b)`: the two field copies, then
the loop `for (i = 2; i <= 11; i++)`. -/
def mirror_posture (a b : Nat) (m : Mem) : Mem :=
  let m1 := m.setSpeed b (m a).speed
  let m2 := m1.setWait b (m1 a).wait_time_ms
  (List.range' 2 10).foldl (mirror_body a b) m2

/-! ## Joint IDs and tuning constants -/

def STEP_SIZE : Nat := 4

def CYCLES_TO_GOAL : CInt := CInt.lit 70

def HEAD : Nat := 1
def WAIST : Nat := 2
def L_SHLDR_P : Nat := 3
def L_SHLDR_R : Nat := 5
def L_ELBW_Y : Nat := 7
def L_ELBW_P : Nat := 9
def R_SHLDR_P : Nat := 4
def R_SHLDR_R : Nat := 6
def R_ELBW_Y : Nat := 8
def R_ELBW_P : Nat := 10
def L_TIGHT_Y : Nat := 11
def L_TIGHT_R : Nat := 13
def L_TIGHT_P : Nat := 15
def L_KNEE : Nat := 17
def L_FOOT_P : Nat := 19
def L_FOOT_R : Nat := 21
def R_TIGHT_Y : Nat := 12
def R_TIGHT_R : Nat := 14
def R_TIGHT_P : Nat := 16
def R_KNEE : Nat := 18
def R_FOOT_P : Nat := 20
def R_FOOT_R : Nat := 22

/-! ## init_posture_data and create_biped_motion -/

/-- The function `init_posture_data(Posture* p)`. -/
def init_posture_data (p : Nat) (m : Mem) : Mem :=
  let m1 := (List.range MAX_SERVO_ID).foldl (fun m i => m.setPos p i (CInt.lit 0)) m
  let m2 := m1.setSpeed p (CInt.lit 350)
  m2.setWait p (CInt.lit 1000)

/-- One iteration of the seeding loop of `create_biped_motion`, for loop variable `i`. -/
def seed_body (steps init_pose : Nat) (m : Mem) (i : Nat) : Mem :=
  let m1 := m.store (steps + i) (m init_pose)
  let m2 := m1.setSpeed (steps + i) (CInt.lit 350)
  m2.setWait (steps + i) (CInt.lit 1000)

/-- The stance offsets that `create_biped_motion` writes into `*init_pose`. -/
def author_stance (init_pose : Nat) (m : Mem) : Mem :=
  let tilt := CInt.lit 9
  let m := m.setPos init_pose L_SHLDR_P (CInt.lit 30)
  let m := m.setPos init_pose L_TIGHT_P (CInt.lit 85)
  let m := m.setPos init_pose L_KNEE (CInt.lit 60)
  let m := m.setPos init_pose L_FOOT_P (CInt.lit 10)
  let m := m.setPos init_pose R_TIGHT_R tilt.neg
  let m := m.setPos init_pose L_TIGHT_R tilt.neg
  let m := m.setPos init_pose R_TIGHT_P (CInt.lit 90).neg
  let m := m.setPos init_pose R_KNEE (CInt.lit 60).neg
  m.setPos init_pose R_FOOT_P (CInt.lit 5)

/-- The authoring of `steps[0]` in `create_biped_motion`. -/
def author_step0 (steps init_pose : Nat) (m : Mem) : Mem :=
  let tilt := CInt.lit 9
  let m := m.store (steps + 0) (m init_pose)
  let m := m.setPos (steps + 0) L_TIGHT_R tilt.neg
  let m := m.setPos (steps + 0) L_KNEE (CInt.lit 10)
  let m := m.setPos (steps + 0) L_FOOT_P (CInt.lit 55)
  let m := m.setPos (steps + 0) L_FOOT_R (CInt.lit 8)
  let m := m.setPos (steps + 0) R_KNEE (CInt.lit 120).neg
  let m := m.setPos (steps + 0) R_FOOT_P (CInt.lit 55)
  let m := m.setPos (steps + 0) R_FOOT_R tilt
  m.setPos (steps + 0) L_TIGHT_P (CInt.lit 90)

/-- The authoring of `steps[1]` in `create_biped_motion`. -/
def author_step1 (steps : Nat) (m : Mem) : Mem :=
  let tilt := CInt.lit 9
  let m := m.store (steps + 1) (m (steps + 0))
  let m := m.setPos (steps + 1) L_SHLDR_P (CInt.lit 100)
  let m := m.setPos (steps + 1) R_SHLDR_P (CInt.lit 100).neg
  let m := m.setPos (steps + 1) L_TIGHT_P (CInt.lit 75)
  let m := m.setPos (steps + 1) L_TIGHT_R tilt
  let m := m.setPos (steps + 1) R_TIGHT_R tilt
  let m := m.setPos (steps + 1) L_FOOT_R tilt.neg
  m.setPos (steps + 1) R_FOOT_R tilt.neg

/-- The function `create_biped_motion(Posture* steps, Posture* init_pose)`; `steps[i]` is
the object at address `steps + i`. -/
def create_biped_motion (steps init_pose : Nat) (m : Mem) : Mem :=
  let m := author_stance init_pose m
  let m := (List.range STEP_SIZE).foldl (seed_body steps init_pose) m
  let m := author_step0 steps init_pose m
  let m := author_step1 steps m
  let m := mirror_posture (steps + 0) (steps + 2) m
  mirror_posture (steps + 1) (steps + 3) m

/-! ## send_posture -/

/-- The calls that `send_posture` makes into the bus library, with their arguments. -/
inductive BusCall
  | command_create
  | command_set_speed (speed : CInt)
  | command_set_servo (id : Nat) (mode : CInt) (pulse : CInt)
  | send_command
  | command_delete
  | util_usleep (us : CInt)

/-- One iteration of the loop of `send_posture`, for loop variable `i`: the call it makes,
if any. `deg2pulse` is the conversion applied to the `int` angle. -/
def servo_call (deg2pulse : CInt → CInt) (p : Posture) (i : Nat) : List BusCall :=
  if (p.get i).val ≠ 0 ∨ i = HEAD then
    [BusCall.command_set_servo i (CInt.lit 0) (deg2pulse (p.get i))]
  else []

/-- The function `send_posture(conn, p)`: the library calls in program order and the value
returned. `ret` is what `rcb4_send_command` answers. -/
def send_posture (deg2pulse : CInt → CInt) (ret : CInt) (p : Posture) : List BusCall × CInt :=
  ([BusCall.command_create, BusCall.command_set_speed p.speed]
    ++ (List.range' 1 (MAX_SERVO_ID - 1)).flatMap (servo_call deg2pulse p)
    ++ [BusCall.send_command, BusCall.command_delete,
        BusCall.util_usleep (p.wait_time_ms.mul (CInt.lit 1000))],
   ret)

/-! ## The walking sequencer and main -/

/-- The two variables of the walking loop of `main`. -/
structure Walk where
  current_step : CInt
  sgn : CInt

/-- The state at loop entry: `current_step = 0`, `sgn = 1`. -/
def Walk.start : Walk := ⟨CInt.lit 0, CInt.lit 1⟩

/-- The index computed at the top of the loop: `current_step % STEP_SIZE`, plus `STEP_SIZE`
when that is negative. -/
def phase_index (current_step : CInt) : CInt :=
  let idx := current_step.rem (CInt.lit STEP_SIZE)
  if idx.val < 0 then idx.add (CInt.lit STEP_SIZE) else idx

/-- The update of the loop variables after a successful dispatch, for goal `goal`
(`CYCLES_TO_GOAL` in the program). -/
def advance (goal : CInt) (s : Walk) : Walk :=
  let current_step := s.current_step.add s.sgn
  if goal.val ≤ current_step.val then ⟨current_step, (CInt.lit 1).neg⟩
  else if current_step.val ≤ 0 then ⟨current_step, CInt.lit 1⟩
  else ⟨current_step, s.sgn⟩

/-- The loop variables after `n` iterations of the loop, none of which left it. -/
def run_ticks (goal : CInt) (n : Nat) : Walk := (advance goal)^[n] Walk.start

/-- What `main` does that is visible outside it. -/
inductive Event
  | rcb4_init
  | printf (format : String) (args : List CInt)
  | send_posture (p : Posture) (calls : List BusCall)
  | sleep (seconds : Nat)
  | rcb4_deinit

/-- The call `send_posture(conn, walk_cycle[idx])` of the loop, in state `s`, answered by
`ret`: the posture passed and the library calls made. The index is never negative
(`phase_index_val`), so its conversion to an address offset loses nothing. -/
def dispatch_event (deg2pulse : CInt → CInt) (ret : CInt) (m : Mem) (walk_cycle : Nat)
    (s : Walk) : Event :=
  let idx := phase_index s.current_step
  Event.send_posture (m (walk_cycle + idx.val.toNat))
    (send_posture deg2pulse ret (m (walk_cycle + idx.val.toNat))).1

/-- The loop `while(1)` of `main`, observed for at most `fuel` iterations: the events of
those iterations, and whether the loop was left by `break`. `k` numbers the next call of
`rcb4_send_command`, whose answer is `rets k`. -/
def walk_loop (deg2pulse : CInt → CInt) (rets : Nat → CInt) (goal : CInt) (m : Mem)
    (walk_cycle : Nat) : Nat → Nat → Walk → List Event × Bool
  | 0, _, _ => ([], false)
  | fuel + 1, k, s =>
    let idx := phase_index s.current_step
    let r := send_posture deg2pulse (rets k) (m (walk_cycle + idx.val.toNat))
    if r.2.val < 0 then
      ([dispatch_event deg2pulse (rets k) m walk_cycle s,
        Event.printf "Command error at step %d\n" [idx]], true)
    else
      let rest := walk_loop deg2pulse rets goal m walk_cycle fuel (k + 1) (advance goal s)
      (dispatch_event deg2pulse (rets k) m walk_cycle s :: rest.1, rest.2)

/-- The postures of `main` when it has called `create_biped_motion`: `init_pose` at address
0 and `walk_cycle` at addresses 1 to 4; `m0` is the content of these locals before they are
initialised. -/
def main_mem (m0 : Mem) : Mem :=
  let init_pose := 0
  let walk_cycle := 1
  let m := init_posture_data init_pose m0
  let m := (List.range STEP_SIZE).foldl (fun m i => init_posture_data (walk_cycle + i) m) m
  create_biped_motion walk_cycle init_pose m

/-- The function `main`, its walking loop observed for at most `fuel` iterations: the events
in order, and the value returned once it returns. `connected` says whether `rcb4_init` gave
a connection, and `rets k` is the answer of the `k`-th call of `rcb4_send_command`
(from 0). -/
def main (deg2pulse : CInt → CInt) (connected : Bool) (rets : Nat → CInt) (m0 : Mem)
    (fuel : Nat) : List Event × Option CInt :=
  if !connected then
    ([Event.rcb4_init, Event.printf "Connection failed.\n" []], some (CInt.lit 1).neg)
  else
    let init_pose := 0
    let walk_cycle := 1
    let m := main_mem m0
    let r := send_posture deg2pulse (rets 0) (m init_pose)
    let head := [Event.rcb4_init, Event.printf "Robot Connected.\n" [],
      Event.printf "Moving to Initial Position...\n" [], Event.send_posture (m init_pose) r.1]
    if r.2.val < 0 then
      (head ++ [Event.printf "Init failed.\n" [], Event.rcb4_deinit], some (CInt.lit 1).neg)
    else
      let loop := walk_loop deg2pulse rets CYCLES_TO_GOAL m walk_cycle fuel 1 Walk.start
      let events := head ++ [Event.sleep 1,
        Event.printf "Walking start... (Press Ctrl+C to stop)\n" []] ++ loop.1
      if loop.2 then (events ++ [Event.rcb4_deinit], some (CInt.lit 0))
      else (events, none)

/-- Whether an event is a call of `send_posture`. -/
def Event.isDispatch : Event → Bool
  | Event.send_posture _ _ => true
  | _ => false

/-- Whether an event is the call of `rcb4_deinit`. -/
def Event.isRelease : Event → Bool
  | Event.rcb4_deinit => true
  | _ => false

/-- The joint IDs of the `rcb4_command_set_servo` calls among `calls`, in call order. -/
def commanded_joints : List BusCall → List Nat
  | [] => []
  | BusCall.command_set_servo id _ _ :: rest => id :: commanded_joints rest
  | _ :: rest => commanded_joints rest

/-! ## Concrete inputs -/

/-- The posture with 0 in every field. -/
def posture_zero : Posture := ⟨fun _ => CInt.lit 0, CInt.lit 0, CInt.lit 0⟩

/-- A memory whose object 0 has angle 30 at joint 3, angle -100 at joint 4, speed 200 and
hold duration 500, every other object being `posture_zero`. -/
def mem_sample : Mem := fun p =>
  if p = 0 then
    { ((posture_zero.set 3 (CInt.lit 30)).set 4 (CInt.lit (-100))) with
      speed := CInt.lit 200, wait_time_ms := CInt.lit 500 }
  else posture_zero

/-- A memory whose object 0 has angle `INT_MIN` at joint 4, every other angle being 0. -/
def mem_int_min : Mem := fun p =>
  if p = 0 then posture_zero.set 4 (CInt.lit INT_MIN) else posture_zero

/-! ## The joint pairs of mirror_posture -/

/-- The pairs `(left_id, right_id)` that the loop of `mirror_posture` goes through, in
loop order. -/
def mirror_pairs : List (Nat × Nat) :=
  (List.range' 2 10).map (fun i => (2 * i - 1, 2 * i))

/-- The two assignments of the loop body of `mirror_posture` for the pair `pr`. -/
def mirror_write (a b : Nat) (m : Mem) (pr : Nat × Nat) : Mem :=
  let m1 := m.setPos b pr.1 ((m a).get pr.2).neg
  m1.setPos b pr.2 ((m1 a).get pr.1).neg

/-! ## Observations on the calls of send_posture and on the sequencer -/

/-- Whether a library call is `rcb4_command_create`. -/
def BusCall.isCreate : BusCall → Bool
  | BusCall.command_create => true
  | _ => false

/-- Whether a library call is `rcb4_command_delete`. -/
def BusCall.isDelete : BusCall → Bool
  | BusCall.command_delete => true
  | _ => false

/-- Whether a library call is `rcb4_command_set_servo`. -/
def BusCall.isSetServo : BusCall → Bool
  | BusCall.command_set_servo _ _ _ => true
  | _ => false

/-- The triangle wave of period `2 * G` and height `G`, at `t`. -/
def triangle (G : Int) (t : Nat) : Int :=
  let r := (t : Int) % (2 * G)
  if r ≤ G then r else 2 * G - r

/-! ## The same functions with every array access checked

Each function below is the function of the same name above with every access
`positions[i]` checked against the 23 slots of the array: it gives `none` as soon as an
index is outside `0..22`. -/

/-- The read `p.positions[i]`, checked. -/
def Posture.get_checked (p : Posture) (i : Nat) : Option CInt :=
  if i < MAX_SERVO_ID then some (p.get i) else none

/-- The assignment `p->positions[i] = v`, checked. -/
def Mem.setPos_checked (m : Mem) (p i : Nat) (v : CInt) : Option Mem :=
  if i < MAX_SERVO_ID then some (m.setPos p i v) else none

/-- The loop body of `mirror_posture`, checked. -/
def mirror_body_checked (a b : Nat) (m : Mem) (i : Nat) : Option Mem := do
  let left_id := 2 * i - 1
  let right_id := 2 * i
  let r ← (m a).get_checked right_id
  let m1 ← m.setPos_checked b left_id r.neg
  let l ← (m1 a).get_checked left_id
  m1.setPos_checked b right_id l.neg

/-- The function `mirror_posture`, checked. -/
def mirror_posture_checked (a b : Nat) (m : Mem) : Option Mem :=
  let m1 := m.setSpeed b (m a).speed
  let m2 := m1.setWait b (m1 a).wait_time_ms
  (List.range' 2 10).foldlM (mirror_body_checked a b) m2

/-- The function `init_posture_data`, checked. -/
def init_posture_data_checked (p : Nat) (m : Mem) : Option Mem := do
  let m1 ← (List.range MAX_SERVO_ID).foldlM (fun m i => m.setPos_checked p i (CInt.lit 0)) m
  let m2 := m1.setSpeed p (CInt.lit 350)
  some (m2.setWait p (CInt.lit 1000))

/-- The loop body of `send_posture`, checked: one read for the test, one for the
argument of `deg2pulse`. -/
def servo_call_checked (deg2pulse : CInt → CInt) (p : Posture) (i : Nat) :
    Option (List BusCall) := do
  let v ← p.get_checked i
  if v.val ≠ 0 ∨ i = HEAD then
    let w ← p.get_checked i
    some [BusCall.command_set_servo i (CInt.lit 0) (deg2pulse w)]
  else some []

/-- The function `send_posture`, checked. -/
def send_posture_checked (deg2pulse : CInt → CInt) (ret : CInt) (p : Posture) :
    Option (List BusCall × CInt) := do
  let calls ← (List.range' 1 (MAX_SERVO_ID - 1)).mapM (servo_call_checked deg2pulse p)
  some ([BusCall.command_create, BusCall.command_set_speed p.speed] ++ calls.flatten
    ++ [BusCall.send_command, BusCall.command_delete,
        BusCall.util_usleep (p.wait_time_ms.mul (CInt.lit 1000))], ret)

/-- The stance offsets of `create_biped_motion`, checked. -/
def author_stance_checked (init_pose : Nat) (m : Mem) : Option Mem := do
  let tilt := CInt.lit 9
  let m ← m.setPos_checked init_pose L_SHLDR_P (CInt.lit 30)
  let m ← m.setPos_checked init_pose L_TIGHT_P (CInt.lit 85)
  let m ← m.setPos_checked init_pose L_KNEE (CInt.lit 60)
  let m ← m.setPos_checked init_pose L_FOOT_P (CInt.lit 10)
  let m ← m.setPos_checked init_pose R_TIGHT_R tilt.neg
  let m ← m.setPos_checked init_pose L_TIGHT_R tilt.neg
  let m ← m.setPos_checked init_pose R_TIGHT_P (CInt.lit 90).neg
  let m ← m.setPos_checked init_pose R_KNEE (CInt.lit 60).neg
  m.setPos_checked init_pose R_FOOT_P (CInt.lit 5)

/-- The authoring of `steps[0]`, checked. -/
def author_step0_checked (steps init_pose : Nat) (m : Mem) : Option Mem := do
  let tilt := CInt.lit 9
  let m := m.store (steps + 0) (m init_pose)
  let m ← m.setPos_checked (steps + 0) L_TIGHT_R tilt.neg
  let m ← m.setPos_checked (steps + 0) L_KNEE (CInt.lit 10)
  let m ← m.setPos_checked (steps + 0) L_FOOT_P (CInt.lit 55)
  let m ← m.setPos_checked (steps + 0) L_FOOT_R (CInt.lit 8)
  let m ← m.setPos_checked (steps + 0) R_KNEE (CInt.lit 120).neg
  let m ← m.setPos_checked (steps + 0) R_FOOT_P (CInt.lit 55)
  let m ← m.setPos_checked (steps + 0) R_FOOT_R tilt
  m.setPos_checked (steps + 0) L_TIGHT_P (CInt.lit 90)

/-- The authoring of `steps[1]`, checked. -/
def author_step1_checked (steps : Nat) (m : Mem) : Option Mem := do
  let tilt := CInt.lit 9
  let m := m.store (steps + 1) (m (steps + 0))
  let m ← m.setPos_checked (steps + 1) L_SHLDR_P (CInt.lit 100)
  let m ← m.setPos_checked (steps + 1) R_SHLDR_P (CInt.lit 100).neg
  let m ← m.setPos_checked (steps + 1) L_TIGHT_P (CInt.lit 75)
  let m ← m.setPos_checked (steps + 1) L_TIGHT_R tilt
  let m ← m.setPos_checked (steps + 1) R_TIGHT_R tilt
  let m ← m.setPos_checked (steps + 1) L_FOOT_R tilt.neg
  m.setPos_checked (steps + 1) R_FOOT_R tilt.neg

/-- The function `create_biped_motion`, checked. -/
def create_biped_motion_checked (steps init_pose : Nat) (m : Mem) : Option Mem := do
  let m ← author_stance_checked init_pose m
  let m := (List.range STEP_SIZE).foldl (seed_body steps init_pose) m
  let m ← author_step0_checked steps init_pose m
  let m ← author_step1_checked steps m
  let m ← mirror_posture_checked (steps + 0) (steps + 2) m
  mirror_posture_checked (steps + 1) (steps + 3) m

/-- The read `walk_cycle[idx]` of the loop of `main`, checked against the `STEP_SIZE`
elements of the array: the offset of the element read. -/
def cycle_slot_checked (idx : CInt) : Option Nat :=
  if 0 ≤ idx.val ∧ idx.val < (STEP_SIZE : Int) then some idx.val.toNat else none

/-! ## deg2pulse

`deg2pulse` computes in floating point. A finite floating value is modelled by the
rational number it stands for; the two functions `round_mul` and `round_add` are the
roundings that the platform applies to the exact product and to the exact sum (both the
identity where the exact result is a floating number). -/

/-- The macro `CENTER_VALUE`. -/
def CENTER_VALUE : Int := 7500

/-- The macro `STEPS_PER_DEG`: the literal 29.63 of type `double`, that is the binary64
number nearest to 29.63, which is `8340103559936737 / 2^48`. -/
def STEPS_PER_DEG : ℚ := 8340103559936737 / 281474976710656

/-- The integral part of a floating value, toward zero. -/
def truncate (v : ℚ) : Int := if 0 ≤ v then ⌊v⌋ else ⌈v⌉

/-- The conversion `(int) v` of a floating value: its integral part toward zero, and no
result (the behaviour is undefined) when that is not a value of `int`. -/
def float_to_int (v : ℚ) : Option CInt :=
  if h : INT_MIN ≤ truncate v ∧ truncate v ≤ INT_MAX then some ⟨truncate v, h⟩ else none

/-- The function `deg2pulse(float degree)`. -/
def deg2pulse (round_mul round_add : ℚ → ℚ) (degree : ℚ) : Option CInt :=
  float_to_int (round_add ((CENTER_VALUE : ℚ) + round_mul (degree * STEPS_PER_DEG)))

/-- A memory whose object 3 has speed 200 and hold duration 500, every angle and every
other object being 0. -/
def mem_home_in_cycle : Mem := fun p =>
  if p = 3 then { posture_zero with speed := CInt.lit 200, wait_time_ms := CInt.lit 500 }
  else posture_zero

/-! ## Facts about C integers -/

theorem CInt.ext {x y : CInt} (h : x.val = y.val) : x = y := by
  cases x; cases y; cases h; rfl

theorem wrap_int_val (x : Int) (h1 : INT_MIN ≤ x) (h2 : x ≤ INT_MAX) : (wrap_int x).val = x := by
  unfold INT_MIN at h1
  unfold INT_MAX at h2
  show (x + 2147483648) % 4294967296 - 2147483648 = x
  omega

theorem wrap_int_self (x : CInt) : wrap_int x.val = x :=
  CInt.ext (wrap_int_val x.val x.inRange.1 x.inRange.2)

theorem CInt.neg_val (x : CInt) (h : x.val ≠ INT_MIN) : x.neg.val = -x.val := by
  have h1 := x.inRange.1
  have h2 := x.inRange.2
  unfold INT_MIN at h h1
  unfold INT_MAX at h2
  show (-x.val + 2147483648) % 4294967296 - 2147483648 = -x.val
  omega

theorem CInt.neg_neg (x : CInt) : x.neg.neg = x := by
  apply CInt.ext
  have h1 := x.inRange.1
  have h2 := x.inRange.2
  unfold INT_MIN at h1
  unfold INT_MAX at h2
  show (-((-x.val + 2147483648) % 4294967296 - 2147483648) + 2147483648) % 4294967296
    - 2147483648 = x.val
  omega

/-! ## Facts about postures and memory -/

theorem Posture.get_set (p : Posture) (i j : Nat) (v : CInt) :
    (p.set i v).get j = if j = i ∧ i < 23 then v else p.get j := by
  unfold Posture.get Posture.set
  by_cases hj : j < MAX_SERVO_ID
  · by_cases hji : j = i
    · subst hji; simp [hj]
    · simp [hj, hji]
  · have : ¬ (j = i ∧ i < 23) := fun h => hj (h.1 ▸ h.2)
    simp [hj, this]

theorem Posture.set_speed (p : Posture) (i : Nat) (v : CInt) : (p.set i v).speed = p.speed := rfl

theorem Posture.set_wait (p : Posture) (i : Nat) (v : CInt) :
    (p.set i v).wait_time_ms = p.wait_time_ms := rfl

theorem Mem.setPos_same (m : Mem) (p i : Nat) (v : CInt) :
    (m.setPos p i v) p = (m p).set i v := by
  simp [Mem.setPos]

theorem Mem.setPos_other (m : Mem) (p q i : Nat) (v : CInt) (h : q ≠ p) :
    (m.setPos p i v) q = m q := by
  simp [Mem.setPos, Function.update_noteq h]

/-! ## Facts about mirror_posture -/

theorem mirror_body_frame (a b i q : Nat) (m : Mem) (h : q ≠ b) :
    mirror_body a b m i q = m q := by
  simp [mirror_body, Mem.setPos_other _ _ _ _ _ h]

theorem mirror_body_dest (a b i : Nat) (m : Mem) (h : a ≠ b) :
    mirror_body a b m i b
      = ((m b).set (2 * i - 1) ((m a).get (2 * i)).neg).set (2 * i) ((m a).get (2 * i - 1)).neg := by
  simp [mirror_body, Mem.setPos_same, Mem.setPos_other _ _ _ _ _ h]

theorem mirror_body_speed (a b i q : Nat) (m : Mem) :
    (mirror_body a b m i q).speed = (m q).speed ∧
    (mirror_body a b m i q).wait_time_ms = (m q).wait_time_ms := by
  by_cases h : q = b
  · subst h
    simp [mirror_body, Mem.setPos_same, Posture.set_speed, Posture.set_wait]
  · rw [mirror_body_frame a b i q m h]
    exact ⟨rfl, rfl⟩

theorem mirror_fold_frame (a b q : Nat) (h : q ≠ b) (l : List Nat) (m : Mem) :
    (l.foldl (mirror_body a b) m) q = m q := by
  induction l generalizing m with
  | nil => rfl
  | cons i l ih => rw [List.foldl_cons, ih, mirror_body_frame a b i q m h]

theorem mirror_fold_speed (a b q : Nat) (l : List Nat) (m : Mem) :
    ((l.foldl (mirror_body a b) m) q).speed = (m q).speed ∧
    ((l.foldl (mirror_body a b) m) q).wait_time_ms = (m q).wait_time_ms := by
  induction l generalizing m with
  | nil => exact ⟨rfl, rfl⟩
  | cons i l ih =>
    rw [List.foldl_cons]
    exact ⟨(ih _).1.trans (mirror_body_speed a b i q m).1,
      (ih _).2.trans (mirror_body_speed a b i q m).2⟩

theorem mirror_fold_untouched (a b j : Nat) (h : a ≠ b) (l : List Nat)
    (hj : ∀ i ∈ l, j ≠ 2 * i - 1 ∧ j ≠ 2 * i) (m : Mem) :
    ((l.foldl (mirror_body a b) m) b).get j = (m b).get j := by
  induction l generalizing m with
  | nil => rfl
  | cons i l ih =>
    rw [List.foldl_cons, ih (fun k hk => hj k (List.mem_cons_of_mem i hk)),
      mirror_body_dest a b i m h, Posture.get_set, Posture.get_set]
    have := hj i (List.mem_cons_self i l)
    simp [this.1, this.2]

theorem range_split (i : Nat) (h2 : 2 ≤ i) (h11 : i ≤ 11) :
    List.range' 2 10 = List.range' 2 (i - 2) ++ i :: List.range' (i + 1) (11 - i) := by
  interval_cases i <;> decide

/-- With distinct source and destination, the loop of `mirror_posture` leaves in the two
slots of pair `i` the C negations of the source's opposite slots. -/
theorem mirror_fold_pair (a b i : Nat) (h : a ≠ b) (h2 : 2 ≤ i) (h11 : i ≤ 11) (m : Mem) :
    (((List.range' 2 10).foldl (mirror_body a b) m) b).get (2 * i - 1) = ((m a).get (2 * i)).neg ∧
    (((List.range' 2 10).foldl (mirror_body a b) m) b).get (2 * i) = ((m a).get (2 * i - 1)).neg := by
  have hsuffix : ∀ k ∈ List.range' (i + 1) (11 - i),
      (2 * i - 1 ≠ 2 * k - 1 ∧ 2 * i - 1 ≠ 2 * k) ∧ (2 * i ≠ 2 * k - 1 ∧ 2 * i ≠ 2 * k) := by
    intro k hk
    rw [List.mem_range'_1] at hk
    omega
  rw [range_split i h2 h11, List.foldl_append, List.foldl_cons,
    mirror_fold_untouched a b _ h _ (fun k hk => (hsuffix k hk).1),
    mirror_fold_untouched a b _ h _ (fun k hk => (hsuffix k hk).2),
    mirror_body_dest a b i _ h, mirror_fold_frame a b a h]
  rw [Posture.get_set, Posture.get_set, Posture.get_set]
  have e1 : ¬ (2 * i - 1 = 2 * i ∧ 2 * i < 23) := by omega
  have e2 : 2 * i - 1 = 2 * i - 1 ∧ 2 * i - 1 < 23 := ⟨rfl, by omega⟩
  have e3 : 2 * i = 2 * i ∧ 2 * i < 23 := ⟨rfl, by omega⟩
  rw [if_neg e1, if_pos e2, if_pos e3]
  exact ⟨rfl, rfl⟩

theorem mirror_posture_frame (a b q : Nat) (h : q ≠ b) (m : Mem) :
    mirror_posture a b m q = m q := by
  unfold mirror_posture
  rw [mirror_fold_frame a b q h]
  simp [Mem.setWait, Mem.setSpeed, Function.update_noteq h]

theorem mirror_posture_pair (a b i : Nat) (h : a ≠ b) (h2 : 2 ≤ i) (h11 : i ≤ 11) (m : Mem) :
    (mirror_posture a b m b).get (2 * i - 1) = ((m a).get (2 * i)).neg ∧
    (mirror_posture a b m b).get (2 * i) = ((m a).get (2 * i - 1)).neg := by
  unfold mirror_posture
  have := mirror_fold_pair a b i h h2 h11
    ((m.setSpeed b (m a).speed).setWait b ((m.setSpeed b (m a).speed) a).wait_time_ms)
  simpa [Mem.setWait, Mem.setSpeed, Function.update_noteq h] using this

theorem mirror_posture_timing (a b : Nat) (m : Mem) :
    (mirror_posture a b m b).speed = (m a).speed ∧
    (mirror_posture a b m b).wait_time_ms = (m a).wait_time_ms := by
  unfold mirror_posture
  rw [(mirror_fold_speed a b b _ _).1, (mirror_fold_speed a b b _ _).2]
  by_cases h : a = b
  · subst h; simp [Mem.setWait, Mem.setSpeed]
  · simp [Mem.setWait, Mem.setSpeed, Function.update_noteq h]

theorem Posture.ext_get (p q : Posture) (hs : p.speed = q.speed)
    (hw : p.wait_time_ms = q.wait_time_ms) (hp : ∀ j, j < MAX_SERVO_ID → p.get j = q.get j) :
    p = q := by
  cases p with
  | mk pp ps pw =>
    cases q with
    | mk qp qs qw =>
      have hfun : pp = qp := by
        funext j
        have := hp j.val j.isLt
        simpa [Posture.get, j.isLt] using this
      cases hfun; cases hs; cases hw; rfl

theorem mirror_posture_unpaired (a b j : Nat) (h : a ≠ b) (hj : j < 3 ∨ 22 < j) (m : Mem) :
    (mirror_posture a b m b).get j = (m b).get j := by
  unfold mirror_posture
  rw [mirror_fold_untouched a b j h]
  · simp [Mem.setWait, Mem.setSpeed, Posture.get]
  · intro i hi
    rw [List.mem_range'_1] at hi
    omega

theorem mirror_posture_joint (a b j : Nat) (h : a ≠ b) (h3 : 3 ≤ j) (h22 : j ≤ 22) (m : Mem) :
    (mirror_posture a b m b).get j
      = ((m a).get (if j % 2 = 1 then j + 1 else j - 1)).neg := by
  have hp := mirror_posture_pair a b ((j + 1) / 2) h (by omega) (by omega) m
  by_cases hodd : j % 2 = 1
  · have e1 : 2 * ((j + 1) / 2) - 1 = j := by omega
    have e2 : 2 * ((j + 1) / 2) = j + 1 := by omega
    rw [e1, e2] at hp
    rw [if_pos hodd, hp.1]
  · have e1 : 2 * ((j + 1) / 2) - 1 = j - 1 := by omega
    have e2 : 2 * ((j + 1) / 2) = j := by omega
    rw [e1, e2] at hp
    rw [if_neg hodd, hp.2]

theorem mirror_twice_joint (a b c j : Nat) (hab : a ≠ b) (hbc : b ≠ c) (h3 : 3 ≤ j)
    (h22 : j ≤ 22) (m : Mem) :
    (mirror_posture b c (mirror_posture a b m) c).get j = (m a).get j := by
  rw [mirror_posture_joint b c j hbc h3 h22]
  by_cases hodd : j % 2 = 1
  · rw [if_pos hodd, mirror_posture_joint a b (j + 1) hab (by omega) (by omega),
      if_neg (by omega), CInt.neg_neg]
    rfl
  · rw [if_neg hodd, mirror_posture_joint a b (j - 1) hab (by omega) (by omega),
      if_pos (by omega), CInt.neg_neg]
    congr 1
    omega

/-! ## Facts about create_biped_motion -/

theorem Mem.setPos_get (m : Mem) (p q i j : Nat) (v : CInt) :
    ((m.setPos p i v) q).get j
      = if q = p ∧ j = i ∧ i < 23 then v else (m q).get j := by
  by_cases h : q = p
  · subst h
    rw [Mem.setPos_same, Posture.get_set]
    simp
  · rw [Mem.setPos_other m p q i v h]
    simp [h]

theorem Mem.store_apply (m : Mem) (p q : Nat) (v : Posture) :
    (m.store p v) q = if q = p then v else m q := by
  by_cases h : q = p
  · subst h; simp [Mem.store]
  · simp [Mem.store, Function.update_noteq h, h]

theorem seed_body_init_get (steps ip i j : Nat) (m : Mem) :
    ((seed_body steps ip m i) ip).get j = (m ip).get j := by
  by_cases h : ip = steps + i
  · simp [seed_body, Mem.store, Mem.setSpeed, Mem.setWait, Posture.get, h]
  · simp [seed_body, Mem.store, Mem.setSpeed, Mem.setWait, Function.update_noteq h]

theorem seed_fold_init_get (steps ip j : Nat) (l : List Nat) (m : Mem) :
    ((l.foldl (seed_body steps ip) m) ip).get j = (m ip).get j := by
  induction l generalizing m with
  | nil => rfl
  | cons i l ih => rw [List.foldl_cons, ih, seed_body_init_get]

/-- The memory that `create_biped_motion` has built when it reaches the two calls of
`mirror_posture`. -/
theorem create_biped_motion_eq (steps ip : Nat) (m : Mem) :
    create_biped_motion steps ip m
      = mirror_posture (steps + 1) (steps + 3) (mirror_posture (steps + 0) (steps + 2)
          (author_step1 steps (author_step0 steps ip
            ((List.range STEP_SIZE).foldl (seed_body steps ip) (author_stance ip m))))) := rfl

theorem author_stance_init (ip : Nat) (m : Mem) :
    author_stance ip m ip
      = (((((((((m ip).set L_SHLDR_P (CInt.lit 30)).set L_TIGHT_P (CInt.lit 85)).set L_KNEE
          (CInt.lit 60)).set L_FOOT_P (CInt.lit 10)).set R_TIGHT_R (CInt.lit 9).neg).set
          L_TIGHT_R (CInt.lit 9).neg).set R_TIGHT_P (CInt.lit 90).neg).set R_KNEE
          (CInt.lit 60).neg).set R_FOOT_P (CInt.lit 5) := by
  simp [author_stance, Mem.setPos_same]

theorem author_step0_dest (steps ip : Nat) (m : Mem) :
    author_step0 steps ip m (steps + 0)
      = ((((((((m ip).set L_TIGHT_R (CInt.lit 9).neg).set L_KNEE (CInt.lit 10)).set L_FOOT_P
          (CInt.lit 55)).set L_FOOT_R (CInt.lit 8)).set R_KNEE (CInt.lit 120).neg).set R_FOOT_P
          (CInt.lit 55)).set R_FOOT_R (CInt.lit 9)).set L_TIGHT_P (CInt.lit 90) := by
  simp [author_step0, Mem.setPos_same, Mem.store]

theorem author_step0_frame (steps ip q : Nat) (m : Mem) (h : q ≠ steps + 0) :
    author_step0 steps ip m q = m q := by
  have h : q ≠ steps := h
  simp [author_step0, Mem.setPos_other _ _ _ _ _ h, Mem.store, Function.update_noteq h]

theorem author_step1_dest (steps : Nat) (m : Mem) :
    author_step1 steps m (steps + 1)
      = (((((((m (steps + 0)).set L_SHLDR_P (CInt.lit 100)).set R_SHLDR_P (CInt.lit 100).neg).set
          L_TIGHT_P (CInt.lit 75)).set L_TIGHT_R (CInt.lit 9)).set R_TIGHT_R (CInt.lit 9)).set
          L_FOOT_R (CInt.lit 9).neg).set R_FOOT_R (CInt.lit 9).neg := by
  simp [author_step1, Mem.setPos_same, Mem.store]

theorem author_step1_frame (steps q : Nat) (m : Mem) (h : q ≠ steps + 1) :
    author_step1 steps m q = m q := by
  simp [author_step1, Mem.setPos_other _ _ _ _ _ h, Mem.store, Function.update_noteq h]

/-- In the authored `steps[0]` and `steps[1]`, no mirrored joint holds `INT_MIN`, provided
the home posture holds none at the joints 4 to 12 that the authoring leaves alone. -/
theorem authored_not_int_min (steps ip : Nat) (m : Mem)
    (h : ∀ j, 4 ≤ j → j ≤ 12 → ((m ip).get j).val ≠ INT_MIN)
    (k j : Nat) (hk : k < 2) (h3 : 3 ≤ j) (h22 : j ≤ 22) :
    (((author_step1 steps (author_step0 steps ip
      ((List.range STEP_SIZE).foldl (seed_body steps ip) (author_stance ip m))))
        (steps + k)).get j).val ≠ INT_MIN := by
  have hk2 : k = 0 ∨ k = 1 := by omega
  rcases hk2 with rfl | rfl
  · rw [author_step1_frame _ _ _ (by omega), author_step0_dest]
    interval_cases j <;>
      simp [Posture.get_set, seed_fold_init_get, author_stance_init, L_SHLDR_P, L_TIGHT_P,
        L_KNEE, L_FOOT_P, R_TIGHT_R, L_TIGHT_R, R_TIGHT_P, R_KNEE, R_FOOT_P, L_FOOT_R, R_FOOT_R,
        R_SHLDR_P] <;>
      first | decide | (apply h <;> decide)
  · rw [author_step1_dest, author_step0_dest]
    interval_cases j <;>
      simp [Posture.get_set, seed_fold_init_get, author_stance_init, L_SHLDR_P, L_TIGHT_P,
        L_KNEE, L_FOOT_P, R_TIGHT_R, L_TIGHT_R, R_TIGHT_P, R_KNEE, R_FOOT_P, L_FOOT_R, R_FOOT_R,
        R_SHLDR_P] <;>
      first | decide | (apply h <;> decide)

theorem author_stance_frame (ip q : Nat) (m : Mem) (h : q ≠ ip) :
    author_stance ip m q = m q := by
  simp [author_stance, Mem.setPos_other _ _ _ _ _ h]

theorem seed_body_frame (steps ip i q : Nat) (m : Mem) (h : q ≠ steps + i) :
    seed_body steps ip m i q = m q := by
  simp [seed_body, Mem.store, Mem.setSpeed, Mem.setWait, Function.update_noteq h]

theorem seed_fold_frame (steps ip q : Nat) (l : List Nat) (h : ∀ i ∈ l, q ≠ steps + i)
    (m : Mem) : (l.foldl (seed_body steps ip) m) q = m q := by
  induction l generalizing m with
  | nil => rfl
  | cons i l ih =>
    rw [List.foldl_cons, ih (fun k hk => h k (List.mem_cons_of_mem i hk)),
      seed_body_frame steps ip i q m (h i (List.mem_cons_self i l))]

/-- Objects other than `*init_pose` and `steps[0..3]` are not written. -/
theorem create_biped_motion_frame (steps ip q : Nat) (m : Mem) (hq : q ≠ ip)
    (hs : q < steps ∨ steps + 4 ≤ q) : create_biped_motion steps ip m q = m q := by
  rw [create_biped_motion_eq, mirror_posture_frame _ _ _ (by omega),
    mirror_posture_frame _ _ _ (by omega), author_step1_frame _ _ _ (by omega),
    author_step0_frame _ _ _ _ (by omega), seed_fold_frame, author_stance_frame _ _ _ hq]
  intro i hi
  have : i < 4 := List.mem_range.mp hi
  omega

/-- Phases 0 and 1 of the result are the authored ones, and phases 2 and 3 hold at each
mirrored pair the C negations of the opposite slots of phases 0 and 1. -/
theorem create_biped_motion_pairs (steps ip k i : Nat) (m : Mem) (hk : k < 2) (h2 : 2 ≤ i)
    (h11 : i ≤ 11) :
    create_biped_motion steps ip m (steps + k)
      = author_step1 steps (author_step0 steps ip
          ((List.range STEP_SIZE).foldl (seed_body steps ip) (author_stance ip m)))
          (steps + k) ∧
    (create_biped_motion steps ip m (steps + (k + 2))).get (2 * i - 1)
      = ((create_biped_motion steps ip m (steps + k)).get (2 * i)).neg ∧
    (create_biped_motion steps ip m (steps + (k + 2))).get (2 * i)
      = ((create_biped_motion steps ip m (steps + k)).get (2 * i - 1)).neg ∧
    (create_biped_motion steps ip m (steps + (k + 2))).speed
      = (create_biped_motion steps ip m (steps + k)).speed ∧
    (create_biped_motion steps ip m (steps + (k + 2))).wait_time_ms
      = (create_biped_motion steps ip m (steps + k)).wait_time_ms := by
  have hk2 : k = 0 ∨ k = 1 := by omega
  rw [create_biped_motion_eq]
  rcases hk2 with rfl | rfl
  · rw [mirror_posture_frame (steps + 1) (steps + 3) (steps + 0) (by omega),
      mirror_posture_frame (steps + 0) (steps + 2) (steps + 0) (by omega),
      mirror_posture_frame (steps + 1) (steps + 3) (steps + (0 + 2)) (by omega)]
    have hp := mirror_posture_pair (steps + 0) (steps + 2) i (by omega) h2 h11
      (author_step1 steps (author_step0 steps ip
        ((List.range STEP_SIZE).foldl (seed_body steps ip) (author_stance ip m))))
    have ht := mirror_posture_timing (steps + 0) (steps + 2)
      (author_step1 steps (author_step0 steps ip
        ((List.range STEP_SIZE).foldl (seed_body steps ip) (author_stance ip m))))
    exact ⟨rfl, hp.1, hp.2, ht.1, ht.2⟩
  · rw [mirror_posture_frame (steps + 1) (steps + 3) (steps + 1) (by omega),
      mirror_posture_frame (steps + 0) (steps + 2) (steps + 1) (by omega)]
    have hp := mirror_posture_pair (steps + 1) (steps + 3) i (by omega) h2 h11
      (mirror_posture (steps + 0) (steps + 2) (author_step1 steps (author_step0 steps ip
        ((List.range STEP_SIZE).foldl (seed_body steps ip) (author_stance ip m)))))
    have ht := mirror_posture_timing (steps + 1) (steps + 3)
      (mirror_posture (steps + 0) (steps + 2) (author_step1 steps (author_step0 steps ip
        ((List.range STEP_SIZE).foldl (seed_body steps ip) (author_stance ip m)))))
    rw [mirror_posture_frame (steps + 0) (steps + 2) (steps + 1) (by omega)] at hp ht
    exact ⟨rfl, hp.1, hp.2, ht.1, ht.2⟩

/-! ## Facts about the walking sequencer -/

theorem tmod_four (c : Int) :
    Int.tmod c 4 = if 0 ≤ c then c % 4 else -((-c) % 4) := by
  by_cases h : 0 ≤ c
  · rw [if_pos h, Int.tmod_eq_emod h (by decide)]
  · rw [if_neg h, Int.tmod_def]
    have e : c.tdiv 4 = -((-c) / 4) := by
      have := Int.neg_tdiv (-c) 4
      rw [Int.neg_neg] at this
      rw [this, Int.tdiv_eq_ediv (by omega) (by decide)]
    rw [e]
    omega

theorem phase_index_val (c : CInt) : (phase_index c).val = c.val % 4 := by
  have h1 := c.inRange.1
  have h2 := c.inRange.2
  unfold INT_MIN at h1
  unfold INT_MAX at h2
  have hrem : (c.rem (CInt.lit STEP_SIZE)).val = Int.tmod c.val 4 := by
    show (Int.tmod c.val 4 + 2147483648) % 4294967296 - 2147483648 = Int.tmod c.val 4
    rw [tmod_four]
    split_ifs <;> omega
  unfold phase_index
  by_cases hneg : (c.rem (CInt.lit STEP_SIZE)).val < 0
  · rw [if_pos hneg]
    rw [hrem, tmod_four] at hneg
    show ((c.rem (CInt.lit STEP_SIZE)).val + 4 + 2147483648) % 4294967296 - 2147483648
      = c.val % 4
    rw [hrem, tmod_four]
    split_ifs at hneg ⊢ <;> omega
  · rw [if_neg hneg, hrem]
    rw [hrem, tmod_four] at hneg
    rw [tmod_four]
    split_ifs at hneg ⊢ <;> omega

theorem advance_vals (G : CInt) (s : Walk)
    (h1 : INT_MIN ≤ s.current_step.val + s.sgn.val)
    (h2 : s.current_step.val + s.sgn.val ≤ INT_MAX) :
    (advance G s).current_step.val = s.current_step.val + s.sgn.val ∧
    (advance G s).sgn.val
      = if G.val ≤ s.current_step.val + s.sgn.val then -1
        else if s.current_step.val + s.sgn.val ≤ 0 then 1 else s.sgn.val := by
  have hadd : (s.current_step.add s.sgn).val = s.current_step.val + s.sgn.val :=
    wrap_int_val _ h1 h2
  unfold advance
  simp only [hadd]
  split_ifs <;> exact ⟨hadd, rfl⟩

theorem run_ticks_succ (G : CInt) (n : Nat) :
    run_ticks G (n + 1) = advance G (run_ticks G n) :=
  Function.iterate_succ_apply' (advance G) n Walk.start

/-- The invariant of the loop: going up below the goal, or going down above 0. -/
theorem run_ticks_invariant (G : CInt) (hG : 0 < G.val) (n : Nat) :
    ((run_ticks G n).sgn.val = 1 ∧ 0 ≤ (run_ticks G n).current_step.val ∧
      (run_ticks G n).current_step.val < G.val) ∨
    ((run_ticks G n).sgn.val = -1 ∧ 0 < (run_ticks G n).current_step.val ∧
      (run_ticks G n).current_step.val ≤ G.val) := by
  have hG2 := G.inRange.2
  unfold INT_MAX at hG2
  induction n with
  | zero =>
    have h0 : (run_ticks G 0).current_step.val = 0 := rfl
    have h1 : (run_ticks G 0).sgn.val = 1 := rfl
    rw [h0, h1]
    omega
  | succ n ih =>
    rw [run_ticks_succ]
    have hv := advance_vals G (run_ticks G n) (by unfold INT_MIN; omega)
      (by unfold INT_MAX; omega)
    rw [hv.1, hv.2]
    split_ifs <;> omega

/-- The loop variables during the first `2 * goal` iterations. -/
theorem run_ticks_first_period (G : CInt) (hG : 0 < G.val) (n : Nat) :
    ((n : Int) < G.val →
      (run_ticks G n).current_step.val = n ∧ (run_ticks G n).sgn.val = 1) ∧
    (G.val ≤ n → (n : Int) < 2 * G.val →
      (run_ticks G n).current_step.val = 2 * G.val - n ∧ (run_ticks G n).sgn.val = -1) ∧
    ((n : Int) = 2 * G.val →
      (run_ticks G n).current_step.val = 0 ∧ (run_ticks G n).sgn.val = 1) := by
  have hG2 := G.inRange.2
  unfold INT_MAX at hG2
  induction n with
  | zero =>
    have h0 : (run_ticks G 0).current_step.val = 0 := rfl
    have h1 : (run_ticks G 0).sgn.val = 1 := rfl
    rw [h0, h1]
    refine ⟨fun _ => ⟨rfl, rfl⟩, fun h _ => ?_, fun h => ?_⟩ <;> omega
  | succ n ih =>
    rw [run_ticks_succ]
    have hinv := run_ticks_invariant G hG n
    have hv := advance_vals G (run_ticks G n) (by unfold INT_MIN; omega)
      (by unfold INT_MAX; omega)
    rw [hv.1, hv.2]
    push_cast
    refine ⟨fun h => ?_, fun h h' => ?_, fun h => ?_⟩
    · have := ih.1 (by omega)
      split_ifs <;> omega
    · by_cases hn : (n : Int) < G.val
      · have := ih.1 hn
        split_ifs <;> omega
      · have := ih.2.1 (by omega) (by omega)
        split_ifs <;> omega
    · have := ih.2.1 (by omega) (by omega)
      split_ifs <;> omega

theorem Walk.ext_val (s t : Walk) (h1 : s.current_step.val = t.current_step.val)
    (h2 : s.sgn.val = t.sgn.val) : s = t := by
  cases s; cases t
  simp only [Walk.mk.injEq]
  exact ⟨CInt.ext h1, CInt.ext h2⟩

/-- After `2 * goal` iterations the loop variables are those of loop entry, so they repeat
with that period. -/
theorem run_ticks_period (G : CInt) (hG : 0 < G.val) (n : Nat) :
    run_ticks G (n + 2 * G.val.toNat) = run_ticks G n := by
  have h := (run_ticks_first_period G hG (2 * G.val.toNat)).2.2 (by push_cast; omega)
  have hstart : run_ticks G (2 * G.val.toNat) = Walk.start :=
    Walk.ext_val _ _ (h.1.trans rfl) (h.2.trans rfl)
  show (advance G)^[n + 2 * G.val.toNat] Walk.start = (advance G)^[n] Walk.start
  rw [Function.iterate_add_apply]
  exact congrArg _ hstart

theorem walk_loop_no_failure (d : CInt → CInt) (rets : Nat → CInt) (G : CInt) (m : Mem)
    (wc : Nat) (hok : ∀ k, 0 ≤ (rets k).val) (fuel k : Nat) (s : Walk) :
    walk_loop d rets G m wc fuel k s
      = ((List.range fuel).map
          (fun t => dispatch_event d (rets (k + t)) m wc ((advance G)^[t] s)), false) := by
  induction fuel generalizing k s with
  | zero => rfl
  | succ fuel ih =>
    have hr : ¬ (send_posture d (rets k)
        (m (wc + (phase_index s.current_step).val.toNat))).2.val < 0 := by
      have := hok k
      show ¬ (rets k).val < 0
      omega
    rw [walk_loop]
    simp only [hr, if_false, ih (k + 1) (advance G s)]
    rw [List.range_succ_eq_map, List.map_cons, List.map_map]
    refine Prod.ext ?_ rfl
    refine congrArg₂ List.cons rfl (List.map_congr_left fun t _ => ?_)
    show dispatch_event d (rets (k + 1 + t)) m wc ((advance G)^[t] (advance G s))
      = dispatch_event d (rets (k + (t + 1))) m wc ((advance G)^[t + 1] s)
    rw [Function.iterate_succ_apply, Nat.add_assoc, Nat.add_comm 1 t]

theorem main_no_failure (d : CInt → CInt) (rets : Nat → CInt) (m0 : Mem)
    (hok : ∀ k, 0 ≤ (rets k).val) (fuel : Nat) :
    (main d true rets m0 fuel).2 = none := by
  have h0 : ¬ (send_posture d (rets 0) (main_mem m0 0)).2.val < 0 := by
    have := hok 0
    show ¬ (rets 0).val < 0
    omega
  unfold main
  simp only [Bool.not_true, Bool.false_eq_true, if_false, h0,
    walk_loop_no_failure d rets CYCLES_TO_GOAL (main_mem m0) 1 hok fuel 1 Walk.start]

theorem goal_val : CYCLES_TO_GOAL.val = 70 := rfl

/-! ## Facts about send_posture -/

theorem commanded_joints_append (l1 l2 : List BusCall) :
    commanded_joints (l1 ++ l2) = commanded_joints l1 ++ commanded_joints l2 := by
  induction l1 with
  | nil => rfl
  | cons c l1 ih => cases c <;> simp [commanded_joints, ih]

theorem commanded_joints_loop (d : CInt → CInt) (p : Posture) (l : List Nat) :
    commanded_joints (l.flatMap (servo_call d p))
      = l.filter (fun i => decide ((p.get i).val ≠ 0 ∨ i = HEAD)) := by
  induction l with
  | nil => rfl
  | cons i l ih =>
    rw [List.flatMap_cons, commanded_joints_append, ih]
    by_cases h : (p.get i).val ≠ 0 ∨ i = HEAD
    · rw [List.filter_cons_of_pos (by simpa using h), servo_call, if_pos h]
      rfl
    · rw [List.filter_cons_of_neg (by simpa using h), servo_call, if_neg h]
      rfl

theorem send_posture_commanded (d : CInt → CInt) (ret : CInt) (p : Posture) :
    commanded_joints (send_posture d ret p).1
      = (List.range' 1 22).filter (fun i => decide ((p.get i).val ≠ 0 ∨ i = HEAD)) := by
  unfold send_posture
  simp only [commanded_joints_append, commanded_joints_loop]
  simp [commanded_joints]

theorem servo_call_pulse (d : CInt → CInt) (p : Posture) (l : List Nat) (id : Nat)
    (mode pulse : CInt)
    (h : BusCall.command_set_servo id mode pulse ∈ l.flatMap (servo_call d p)) :
    mode = CInt.lit 0 ∧ pulse = d (p.get id) := by
  rw [List.mem_flatMap] at h
  obtain ⟨i, _, hi⟩ := h
  unfold servo_call at hi
  split_ifs at hi
  · simp only [List.mem_singleton, BusCall.command_set_servo.injEq] at hi
    obtain ⟨rfl, rfl, rfl⟩ := hi
    exact ⟨rfl, rfl⟩
  · simp at hi

/-! ## Facts about main -/

theorem walk_loop_succ_fail (d : CInt → CInt) (rets : Nat → CInt) (G : CInt) (m : Mem)
    (wc f k : Nat) (s : Walk) (h : (rets k).val < 0) :
    walk_loop d rets G m wc (f + 1) k s
      = ([dispatch_event d (rets k) m wc s,
          Event.printf "Command error at step %d\n" [phase_index s.current_step]], true) := by
  have hr : (send_posture d (rets k)
      (m (wc + (phase_index s.current_step).val.toNat))).2.val < 0 := h
  rw [walk_loop]
  simp only [hr, if_true]

theorem walk_loop_succ_ok (d : CInt → CInt) (rets : Nat → CInt) (G : CInt) (m : Mem)
    (wc f k : Nat) (s : Walk) (h : 0 ≤ (rets k).val) :
    walk_loop d rets G m wc (f + 1) k s
      = (dispatch_event d (rets k) m wc s
          :: (walk_loop d rets G m wc f (k + 1) (advance G s)).1,
        (walk_loop d rets G m wc f (k + 1) (advance G s)).2) := by
  have hr : ¬ (send_posture d (rets k)
      (m (wc + (phase_index s.current_step).val.toNat))).2.val < 0 := by
    show ¬ (rets k).val < 0
    omega
  rw [walk_loop]
  simp only [hr, if_false]

theorem dispatch_event_isDispatch (d : CInt → CInt) (r : CInt) (m : Mem) (wc : Nat)
    (s : Walk) : (dispatch_event d r m wc s).isDispatch = true := rfl

theorem dispatch_event_isRelease (d : CInt → CInt) (r : CInt) (m : Mem) (wc : Nat)
    (s : Walk) : (dispatch_event d r m wc s).isRelease = false := rfl

/-- A loop whose `j`-th dispatch (from 0) is the first to fail leaves by `break` after
`j + 1` dispatches, given fuel for them. -/
theorem walk_loop_failure (d : CInt → CInt) (rets : Nat → CInt) (G : CInt) (m : Mem)
    (wc j : Nat) : ∀ (fuel k : Nat) (s : Walk), j < fuel → (rets (k + j)).val < 0 →
    (∀ t, t < j → 0 ≤ (rets (k + t)).val) →
    (walk_loop d rets G m wc fuel k s).2 = true ∧
    (walk_loop d rets G m wc fuel k s).1.countP Event.isDispatch = j + 1 ∧
    (walk_loop d rets G m wc fuel k s).1.countP Event.isRelease = 0 := by
  induction j with
  | zero =>
    intro fuel k s hf hfail _
    obtain ⟨f, rfl⟩ : ∃ f, fuel = f + 1 := ⟨fuel - 1, by omega⟩
    rw [walk_loop_succ_fail d rets G m wc f k s hfail]
    exact ⟨rfl, rfl, rfl⟩
  | succ j ih =>
    intro fuel k s hf hfail hok
    obtain ⟨f, rfl⟩ : ∃ f, fuel = f + 1 := ⟨fuel - 1, by omega⟩
    have hrec := ih f (k + 1) (advance G s) (by omega)
      (by rw [Nat.add_assoc, Nat.add_comm 1 j]; exact hfail)
      (fun t ht => by
        have := hok (t + 1) (by omega)
        rw [Nat.add_assoc, Nat.add_comm 1 t]; exact this)
    rw [walk_loop_succ_ok d rets G m wc f k s (hok 0 (by omega))]
    refine ⟨hrec.1, ?_, ?_⟩
    · simp only [List.countP_cons, dispatch_event_isDispatch, hrec.2.1, if_true]
    · simp only [List.countP_cons, dispatch_event_isRelease, hrec.2.2]
      rfl

theorem main_init_failure (d : CInt → CInt) (rets : Nat → CInt) (m0 : Mem) (fuel : Nat)
    (h : (rets 0).val < 0) :
    main d true rets m0 fuel
      = ([Event.rcb4_init, Event.printf "Robot Connected.\n" [],
          Event.printf "Moving to Initial Position...\n" [],
          Event.send_posture (main_mem m0 0) (send_posture d (rets 0) (main_mem m0 0)).1,
          Event.printf "Init failed.\n" [], Event.rcb4_deinit], some (CInt.lit 1).neg) := by
  have hr : (send_posture d (rets 0) (main_mem m0 0)).2.val < 0 := h
  unfold main
  simp only [Bool.not_true, Bool.false_eq_true, if_false, hr, if_true]
  rfl

theorem main_loop_exit (d : CInt → CInt) (rets : Nat → CInt) (m0 : Mem) (fuel : Nat)
    (h : 0 ≤ (rets 0).val)
    (hexit : (walk_loop d rets CYCLES_TO_GOAL (main_mem m0) 1 fuel 1 Walk.start).2 = true) :
    main d true rets m0 fuel
      = ([Event.rcb4_init, Event.printf "Robot Connected.\n" [],
          Event.printf "Moving to Initial Position...\n" [],
          Event.send_posture (main_mem m0 0) (send_posture d (rets 0) (main_mem m0 0)).1]
          ++ [Event.sleep 1, Event.printf "Walking start... (Press Ctrl+C to stop)\n" []]
          ++ (walk_loop d rets CYCLES_TO_GOAL (main_mem m0) 1 fuel 1 Walk.start).1
          ++ [Event.rcb4_deinit], some (CInt.lit 0)) := by
  have hr : ¬ (send_posture d (rets 0) (main_mem m0 0)).2.val < 0 := by
    show ¬ (rets 0).val < 0
    omega
  unfold main
  simp only [Bool.not_true, Bool.false_eq_true, if_false, hr, hexit, if_true]

/-! ## Facts about mirror_posture for arbitrary pointers -/

theorem mirror_body_untouched (a b i q j : Nat) (m : Mem) (h1 : j ≠ 2 * i - 1)
    (h2 : j ≠ 2 * i) : (mirror_body a b m i q).get j = (m q).get j := by
  unfold mirror_body
  simp only [Mem.setPos_get]
  rw [if_neg (fun h => h2 h.2.1), if_neg (fun h => h1 h.2.1)]

theorem mirror_fold_untouched_any (a b q j : Nat) (l : List Nat)
    (hj : ∀ i ∈ l, j ≠ 2 * i - 1 ∧ j ≠ 2 * i) (m : Mem) :
    ((l.foldl (mirror_body a b) m) q).get j = (m q).get j := by
  induction l generalizing m with
  | nil => rfl
  | cons i l ih =>
    rw [List.foldl_cons, ih (fun k hk => hj k (List.mem_cons_of_mem i hk)),
      mirror_body_untouched a b i q j m (hj i (List.mem_cons_self i l)).1
        (hj i (List.mem_cons_self i l)).2]

theorem mirror_posture_slot_frame (a b j : Nat) (hj : j < 3 ∨ 22 < j) (m : Mem) :
    (mirror_posture a b m b).get j = (m b).get j := by
  unfold mirror_posture
  rw [mirror_fold_untouched_any a b b j]
  · simp [Mem.setWait, Mem.setSpeed, Posture.get]
  · intro i hi
    rw [List.mem_range'_1] at hi
    omega

theorem mirror_posture_eq_pairs (a b : Nat) (m : Mem) :
    mirror_posture a b m
      = mirror_pairs.foldl (mirror_write a b)
          ((m.setSpeed b (m a).speed).setWait b
            ((m.setSpeed b (m a).speed) a).wait_time_ms) := by
  unfold mirror_posture mirror_pairs
  rw [List.foldl_map]
  rfl

theorem mirror_body_alias (p i : Nat) (m : Mem) (h2 : 2 ≤ i) (h11 : i ≤ 11) :
    (mirror_body p p m i p).get (2 * i - 1) = ((m p).get (2 * i)).neg ∧
    (mirror_body p p m i p).get (2 * i) = (m p).get (2 * i) := by
  unfold mirror_body
  simp only [Mem.setPos_get]
  have e1 : ¬ (True ∧ 2 * i - 1 = 2 * i ∧ 2 * i < 23) := by omega
  have e2 : True ∧ True ∧ 2 * i - 1 < 23 := ⟨trivial, trivial, by omega⟩
  have e3 : True ∧ True ∧ 2 * i < 23 := ⟨trivial, trivial, by omega⟩
  rw [if_neg e1, if_pos e2, if_pos e3, CInt.neg_neg]
  exact ⟨rfl, rfl⟩

/-- With source and destination the same object, the loop of `mirror_posture` leaves in
the left slot of pair `i` the C negation of the old right slot, and the right slot as it
was. -/
theorem mirror_fold_alias_pair (p i : Nat) (h2 : 2 ≤ i) (h11 : i ≤ 11) (m : Mem) :
    (((List.range' 2 10).foldl (mirror_body p p) m) p).get (2 * i - 1)
      = ((m p).get (2 * i)).neg ∧
    (((List.range' 2 10).foldl (mirror_body p p) m) p).get (2 * i) = (m p).get (2 * i) := by
  have hsuffix : ∀ k ∈ List.range' (i + 1) (11 - i),
      (2 * i - 1 ≠ 2 * k - 1 ∧ 2 * i - 1 ≠ 2 * k) ∧ (2 * i ≠ 2 * k - 1 ∧ 2 * i ≠ 2 * k) := by
    intro k hk
    rw [List.mem_range'_1] at hk
    omega
  have hfront : ∀ k ∈ List.range' 2 (i - 2),
      (2 * i - 1 ≠ 2 * k - 1 ∧ 2 * i - 1 ≠ 2 * k) ∧ (2 * i ≠ 2 * k - 1 ∧ 2 * i ≠ 2 * k) := by
    intro k hk
    rw [List.mem_range'_1] at hk
    omega
  have hb := mirror_body_alias p i ((List.range' 2 (i - 2)).foldl (mirror_body p p) m) h2 h11
  rw [mirror_fold_untouched_any p p p _ _ (fun k hk => (hfront k hk).2)] at hb
  rw [range_split i h2 h11, List.foldl_append, List.foldl_cons,
    mirror_fold_untouched_any p p p _ _ (fun k hk => (hsuffix k hk).1),
    mirror_fold_untouched_any p p p _ _ (fun k hk => (hsuffix k hk).2)]
  exact hb

theorem mirror_posture_alias_pair (p i : Nat) (h2 : 2 ≤ i) (h11 : i ≤ 11) (m : Mem) :
    (mirror_posture p p m p).get (2 * i - 1) = ((m p).get (2 * i)).neg ∧
    (mirror_posture p p m p).get (2 * i) = (m p).get (2 * i) := by
  unfold mirror_posture
  have := mirror_fold_alias_pair p i h2 h11
    ((m.setSpeed p (m p).speed).setWait p ((m.setSpeed p (m p).speed) p).wait_time_ms)
  simpa [Mem.setWait, Mem.setSpeed, Posture.get] using this

/-! ## Facts about init_posture_data -/

theorem zero_fold_untouched (p q j : Nat) (l : List Nat) (hj : q ≠ p ∨ j ∉ l) (m : Mem) :
    ((l.foldl (fun m i => m.setPos p i (CInt.lit 0)) m) q).get j = (m q).get j := by
  induction l generalizing m with
  | nil => rfl
  | cons i l ih =>
    have hj' : q ≠ p ∨ j ∉ l := hj.imp id (fun h hl => h (List.mem_cons_of_mem i hl))
    rw [List.foldl_cons, ih hj', Mem.setPos_get, if_neg]
    rintro ⟨hq, hji, _⟩
    rcases hj with h | h
    · exact h hq
    · exact h (hji ▸ List.mem_cons_self i l)

theorem zero_fold_written (p j : Nat) (l : List Nat) (hl : j ∈ l) (hj : j < 23) (m : Mem) :
    ((l.foldl (fun m i => m.setPos p i (CInt.lit 0)) m) p).get j = CInt.lit 0 := by
  induction l generalizing m with
  | nil => cases hl
  | cons i l ih =>
    rw [List.foldl_cons]
    by_cases hin : j ∈ l
    · exact ih hin _
    · have hji : j = i := by
        rcases List.mem_cons.mp hl with h | h
        · exact h
        · exact absurd h hin
      subst hji
      rw [zero_fold_untouched p p j l (Or.inr hin), Mem.setPos_get,
        if_pos ⟨rfl, rfl, hj⟩]

theorem init_posture_data_dest (p : Nat) (m : Mem) :
    (∀ j, j < 23 → (init_posture_data p m p).get j = CInt.lit 0) ∧
    (init_posture_data p m p).speed = CInt.lit 350 ∧
    (init_posture_data p m p).wait_time_ms = CInt.lit 1000 := by
  refine ⟨fun j hj => ?_, ?_, ?_⟩
  · have h := zero_fold_written p j (List.range MAX_SERVO_ID) (List.mem_range.mpr hj) hj m
    rw [← h]
    simp [init_posture_data, Mem.setWait, Mem.setSpeed, Posture.get]
  · simp [init_posture_data, Mem.setWait, Mem.setSpeed]
  · simp [init_posture_data, Mem.setWait, Mem.setSpeed]

theorem init_posture_data_frame (p q : Nat) (m : Mem) (h : q ≠ p) :
    init_posture_data p m q = m q := by
  have hz : ∀ (l : List Nat) (m : Mem),
      (l.foldl (fun m i => m.setPos p i (CInt.lit 0)) m) q = m q := by
    intro l
    induction l with
    | nil => intro m; rfl
    | cons i l ih => intro m; rw [List.foldl_cons, ih, Mem.setPos_other _ _ _ _ _ h]
  simp [init_posture_data, Mem.setWait, Mem.setSpeed, Function.update_noteq h, hz]

theorem init_cycle_frame (wc q : Nat) (l : List Nat) (h : ∀ i ∈ l, q ≠ wc + i) (m : Mem) :
    (l.foldl (fun m i => init_posture_data (wc + i) m) m) q = m q := by
  induction l generalizing m with
  | nil => rfl
  | cons i l ih =>
    rw [List.foldl_cons, ih (fun k hk => h k (List.mem_cons_of_mem i hk)),
      init_posture_data_frame _ _ _ (h i (List.mem_cons_self i l))]

/-- With `*init_pose` outside `steps[0..3]`, `create_biped_motion` leaves in `*init_pose`
the stance it authored there. -/
theorem create_biped_motion_init (steps ip : Nat) (m : Mem)
    (hsep : ip < steps ∨ steps + 4 ≤ ip) :
    create_biped_motion steps ip m ip = author_stance ip m ip := by
  rw [create_biped_motion_eq, mirror_posture_frame _ _ _ (by omega),
    mirror_posture_frame _ _ _ (by omega), author_step1_frame _ _ _ (by omega),
    author_step0_frame _ _ _ _ (by omega), seed_fold_frame]
  intro i hi
  have : i < 4 := List.mem_range.mp hi
  omega

theorem main_mem_init_pose (m0 : Mem) :
    main_mem m0 0 = author_stance 0 (init_posture_data 0 m0) 0 := by
  unfold main_mem
  rw [create_biped_motion_init 1 0 _ (by omega), author_stance_init, author_stance_init,
    init_cycle_frame 1 0 _ (fun i _ => by omega)]

/-! ## What the phases of create_biped_motion inherit from the home posture -/

theorem seed_body_dest_get (steps ip k j : Nat) (m : Mem) :
    ((seed_body steps ip m k) (steps + k)).get j = (m ip).get j := by
  simp [seed_body, Mem.store, Mem.setSpeed, Mem.setWait, Posture.get]

theorem seed_fold_dest_get (steps ip i j : Nat) (l : List Nat) (hi : i ∈ l) (m : Mem) :
    ((l.foldl (seed_body steps ip) m) (steps + i)).get j = (m ip).get j := by
  induction l generalizing m with
  | nil => cases hi
  | cons k l ih =>
    rw [List.foldl_cons]
    by_cases hin : i ∈ l
    · rw [ih hin, seed_body_init_get]
    · have hik : i = k := by
        rcases List.mem_cons.mp hi with h | h
        · exact h
        · exact absurd h hin
      subst hik
      rw [seed_fold_frame steps ip (steps + i) l
        (fun k hk hc => hin ((Nat.add_left_cancel hc) ▸ hk)), seed_body_dest_get]

theorem author_stance_timing (ip : Nat) (m : Mem) :
    (author_stance ip m ip).speed = (m ip).speed ∧
    (author_stance ip m ip).wait_time_ms = (m ip).wait_time_ms := by
  rw [author_stance_init]
  exact ⟨rfl, rfl⟩

theorem author_stance_unpaired (ip j : Nat) (m : Mem) (hj : j < 3) :
    (author_stance ip m ip).get j = (m ip).get j := by
  rw [author_stance_init]
  interval_cases j <;>
    simp [Posture.get_set, L_SHLDR_P, L_TIGHT_P, L_KNEE, L_FOOT_P, R_TIGHT_R, L_TIGHT_R,
      R_TIGHT_P, R_KNEE, R_FOOT_P]

/-- The authored phases 0 and 1 have the speed and the hold duration of the home posture,
when `*init_pose` lies outside `steps[0..3]`. -/
theorem authored_timing (steps ip k : Nat) (m : Mem) (hsep : ip < steps ∨ steps + 4 ≤ ip)
    (hk : k < 2) :
    ((author_step1 steps (author_step0 steps ip
      ((List.range STEP_SIZE).foldl (seed_body steps ip) (author_stance ip m))))
        (steps + k)).speed = (m ip).speed ∧
    ((author_step1 steps (author_step0 steps ip
      ((List.range STEP_SIZE).foldl (seed_body steps ip) (author_stance ip m))))
        (steps + k)).wait_time_ms = (m ip).wait_time_ms := by
  have hseed : ((List.range STEP_SIZE).foldl (seed_body steps ip) (author_stance ip m)) ip
      = author_stance ip m ip := by
    apply seed_fold_frame
    intro i hi
    have : i < 4 := List.mem_range.mp hi
    omega
  have hk2 : k = 0 ∨ k = 1 := by omega
  rcases hk2 with rfl | rfl
  · rw [author_step1_frame _ _ _ (by omega), author_step0_dest]
    simp only [Posture.set_speed, Posture.set_wait, hseed]
    exact author_stance_timing ip m
  · rw [author_step1_dest, author_step0_dest]
    simp only [Posture.set_speed, Posture.set_wait, hseed]
    exact author_stance_timing ip m

/-- Every phase slot holds, before the two mirror calls, the home posture's values at the
un-paired slots 0, 1, 2. -/
theorem authored_unpaired (steps ip k j : Nat) (m : Mem) (hk : k < 4) (hj : j < 3) :
    ((author_step1 steps (author_step0 steps ip
      ((List.range STEP_SIZE).foldl (seed_body steps ip) (author_stance ip m))))
        (steps + k)).get j = (m ip).get j := by
  have hk4 : k = 0 ∨ k = 1 ∨ 2 ≤ k := by omega
  rcases hk4 with rfl | rfl | hk2
  · rw [author_step1_frame _ _ _ (by omega), author_step0_dest]
    have h := author_stance_unpaired ip j m hj
    interval_cases j <;>
      simpa [Posture.get_set, seed_fold_init_get, L_SHLDR_P, L_TIGHT_P, L_KNEE, L_FOOT_P,
        R_TIGHT_R, L_TIGHT_R, R_TIGHT_P, R_KNEE, R_FOOT_P, L_FOOT_R, R_FOOT_R, R_SHLDR_P]
        using h
  · rw [author_step1_dest, author_step0_dest]
    have h := author_stance_unpaired ip j m hj
    interval_cases j <;>
      simpa [Posture.get_set, seed_fold_init_get, L_SHLDR_P, L_TIGHT_P, L_KNEE, L_FOOT_P,
        R_TIGHT_R, L_TIGHT_R, R_TIGHT_P, R_KNEE, R_FOOT_P, L_FOOT_R, R_FOOT_R, R_SHLDR_P]
        using h
  · rw [author_step1_frame _ _ _ (by omega), author_step0_frame _ _ _ _ (by omega)]
    exact (seed_fold_dest_get steps ip k j (List.range STEP_SIZE)
      (List.mem_range.mpr hk) _).trans (author_stance_unpaired ip j m hj)

theorem create_biped_motion_unpaired (steps ip k j : Nat) (m : Mem) (hk : k < 4)
    (hj : j < 3) : (create_biped_motion steps ip m (steps + k)).get j = (m ip).get j := by
  have hk4 : k < 2 ∨ k = 2 ∨ k = 3 := by omega
  rcases hk4 with hk2 | rfl | rfl
  · rw [(create_biped_motion_pairs steps ip k 2 m hk2 (by decide) (by decide)).1]
    exact authored_unpaired steps ip k j m hk hj
  · rw [create_biped_motion_eq, mirror_posture_frame (steps + 1) (steps + 3) (steps + 2)
      (by omega), mirror_posture_slot_frame (steps + 0) (steps + 2) j (Or.inl hj)]
    exact authored_unpaired steps ip 2 j m hk hj
  · rw [create_biped_motion_eq, mirror_posture_slot_frame (steps + 1) (steps + 3) j
      (Or.inl hj), mirror_posture_frame (steps + 0) (steps + 2) (steps + 3) (by omega)]
    exact authored_unpaired steps ip 3 j m hk hj

theorem create_biped_motion_timing (steps ip k : Nat) (m : Mem)
    (hsep : ip < steps ∨ steps + 4 ≤ ip) (hk : k < 4) :
    (create_biped_motion steps ip m (steps + k)).speed = (m ip).speed ∧
    (create_biped_motion steps ip m (steps + k)).wait_time_ms = (m ip).wait_time_ms := by
  have hlow : ∀ k', k' < 2 →
      (create_biped_motion steps ip m (steps + k')).speed = (m ip).speed ∧
      (create_biped_motion steps ip m (steps + k')).wait_time_ms
        = (m ip).wait_time_ms := by
    intro k' hk'
    rw [(create_biped_motion_pairs steps ip k' 2 m hk' (by decide) (by decide)).1]
    exact authored_timing steps ip k' m hsep hk'
  by_cases hk2 : k < 2
  · exact hlow k hk2
  · obtain ⟨k', rfl⟩ : ∃ k', k = k' + 2 := ⟨k - 2, by omega⟩
    have hp := create_biped_motion_pairs steps ip k' 2 m (by omega) (by decide) (by decide)
    rw [hp.2.2.2.1, hp.2.2.2.2]
    exact hlow k' (by omega)

/-! ## Facts about the command buffer of send_posture -/

theorem servo_calls_kind (d : CInt → CInt) (p : Posture) (l : List Nat) (c : BusCall)
    (h : c ∈ l.flatMap (servo_call d p)) : c.isSetServo = true := by
  rw [List.mem_flatMap] at h
  obtain ⟨i, _, hi⟩ := h
  unfold servo_call at hi
  split_ifs at hi
  · rw [List.mem_singleton] at hi
    subst hi
    rfl
  · simp at hi

theorem countP_servo_calls (d : CInt → CInt) (p : Posture) (l : List Nat)
    (f : BusCall → Bool) (hf : ∀ c, c.isSetServo = true → f c = false) :
    (l.flatMap (servo_call d p)).countP f = 0 := by
  rw [List.countP_eq_zero]
  intro c hc
  rw [hf c (servo_calls_kind d p l c hc)]
  decide

/-! ## The sequencer as a triangle wave -/

theorem run_ticks_mod (G : CInt) (hG : 0 < G.val) (t : Nat) :
    run_ticks G t = run_ticks G (t % (2 * G.val.toNat)) := by
  induction t using Nat.strong_induction_on with
  | _ t ih =>
    by_cases ht : t < 2 * G.val.toNat
    · rw [Nat.mod_eq_of_lt ht]
    · have hsplit : t = (t - 2 * G.val.toNat) + 2 * G.val.toNat := by omega
      have hpos : 0 < 2 * G.val.toNat := by omega
      rw [Nat.mod_eq_sub_mod (by omega), ← ih (t - 2 * G.val.toNat) (by omega)]
      conv_lhs => rw [hsplit]
      exact run_ticks_period G hG _

theorem run_ticks_triangle (G : CInt) (hG : 0 < G.val) (t : Nat) :
    (run_ticks G t).current_step.val = triangle G.val t ∧
    (run_ticks G t).sgn.val = if (t : Int) % (2 * G.val) < G.val then 1 else -1 := by
  have hpos : 0 < 2 * G.val.toNat := by omega
  have hr : t % (2 * G.val.toNat) < 2 * G.val.toNat := Nat.mod_lt _ hpos
  have hcast : ((t % (2 * G.val.toNat) : Nat) : Int) = (t : Int) % (2 * G.val) := by
    rw [Int.natCast_mod]
    congr 1
    push_cast
    omega
  have hper := run_ticks_first_period G hG (t % (2 * G.val.toNat))
  rw [run_ticks_mod G hG t]
  unfold triangle
  simp only []
  rw [← hcast]
  by_cases hlt : ((t % (2 * G.val.toNat) : Nat) : Int) < G.val
  · have h := hper.1 hlt
    rw [h.1, h.2, if_pos hlt, if_pos (by omega)]
    exact ⟨rfl, rfl⟩
  · have h := hper.2.1 (by omega) (by omega)
    rw [h.1, h.2, if_neg hlt]
    refine ⟨?_, rfl⟩
    split_ifs <;> omega

/-! ## The checked functions never leave the arrays -/

theorem Posture.get_checked_eq (p : Posture) (i : Nat) (h : i < 23) :
    p.get_checked i = some (p.get i) := by
  unfold Posture.get_checked
  rw [if_pos h]

theorem Mem.setPos_checked_eq (m : Mem) (p i : Nat) (v : CInt) (h : i < 23) :
    m.setPos_checked p i v = some (m.setPos p i v) := by
  unfold Mem.setPos_checked
  rw [if_pos h]

theorem foldlM_eq_some {α β : Type} (f : β → α → Option β) (g : β → α → β) (l : List α)
    (h : ∀ i ∈ l, ∀ b, f b i = some (g b i)) (b : β) :
    l.foldlM f b = some (l.foldl g b) := by
  induction l generalizing b with
  | nil => rfl
  | cons i l ih =>
    rw [List.foldlM_cons, h i (List.mem_cons_self i l) b, List.foldl_cons]
    exact ih (fun k hk => h k (List.mem_cons_of_mem i hk)) (g b i)

theorem mapM_eq_some {α β : Type} (f : α → Option β) (g : α → β) (l : List α)
    (h : ∀ i ∈ l, f i = some (g i)) : l.mapM f = some (l.map g) := by
  induction l with
  | nil => rfl
  | cons i l ih =>
    rw [List.mapM_cons, h i (List.mem_cons_self i l),
      ih (fun k hk => h k (List.mem_cons_of_mem i hk))]
    rfl

theorem mirror_body_checked_eq (a b i : Nat) (m : Mem) (h2 : 2 ≤ i) (h11 : i ≤ 11) :
    mirror_body_checked a b m i = some (mirror_body a b m i) := by
  have hl : 2 * i - 1 < MAX_SERVO_ID := by show _ < 23; omega
  have hr : 2 * i < MAX_SERVO_ID := by show _ < 23; omega
  unfold mirror_body_checked mirror_body
  simp only [Posture.get_checked, Mem.setPos_checked, hl, hr, if_true, Option.bind_eq_bind,
    Option.some_bind]

theorem mirror_posture_checked_eq (a b : Nat) (m : Mem) :
    mirror_posture_checked a b m = some (mirror_posture a b m) := by
  unfold mirror_posture_checked mirror_posture
  apply foldlM_eq_some
  intro i hi m'
  rw [List.mem_range'_1] at hi
  exact mirror_body_checked_eq a b i m' hi.1 (by omega)

theorem init_posture_data_checked_eq (p : Nat) (m : Mem) :
    init_posture_data_checked p m = some (init_posture_data p m) := by
  unfold init_posture_data_checked init_posture_data
  rw [foldlM_eq_some _ (fun m i => m.setPos p i (CInt.lit 0)) _
    (fun i hi m' => Mem.setPos_checked_eq m' p i _ (List.mem_range.mp hi))]
  rfl

theorem servo_call_checked_eq (d : CInt → CInt) (p : Posture) (i : Nat) (h : i < 23) :
    servo_call_checked d p i = some (servo_call d p i) := by
  unfold servo_call_checked servo_call
  rw [Posture.get_checked_eq p i h]
  simp only [Option.bind_eq_bind, Option.some_bind]
  split_ifs <;> rfl

theorem send_posture_checked_eq (d : CInt → CInt) (ret : CInt) (p : Posture) :
    send_posture_checked d ret p = some (send_posture d ret p) := by
  unfold send_posture_checked send_posture
  rw [mapM_eq_some _ (servo_call d p) _ (fun i hi =>
    servo_call_checked_eq d p i (by
      rw [List.mem_range'_1] at hi
      have : i < 1 + (23 - 1) := hi.2
      omega))]
  rfl

theorem author_stance_checked_eq (ip : Nat) (m : Mem) :
    author_stance_checked ip m = some (author_stance ip m) := by
  unfold author_stance_checked author_stance
  simp only [Mem.setPos_checked, L_SHLDR_P, L_TIGHT_P, L_KNEE, L_FOOT_P, R_TIGHT_R,
    L_TIGHT_R, R_TIGHT_P, R_KNEE, R_FOOT_P]
  rfl

theorem author_step0_checked_eq (steps ip : Nat) (m : Mem) :
    author_step0_checked steps ip m = some (author_step0 steps ip m) := by
  unfold author_step0_checked author_step0
  simp only [Mem.setPos_checked, L_TIGHT_R, L_KNEE, L_FOOT_P, L_FOOT_R, R_KNEE, R_FOOT_P,
    R_FOOT_R, L_TIGHT_P]
  rfl

theorem author_step1_checked_eq (steps : Nat) (m : Mem) :
    author_step1_checked steps m = some (author_step1 steps m) := by
  unfold author_step1_checked author_step1
  simp only [Mem.setPos_checked, L_SHLDR_P, R_SHLDR_P, L_TIGHT_P, L_TIGHT_R, R_TIGHT_R,
    L_FOOT_R, R_FOOT_R]
  rfl

theorem create_biped_motion_checked_eq (steps ip : Nat) (m : Mem) :
    create_biped_motion_checked steps ip m = some (create_biped_motion steps ip m) := by
  rw [create_biped_motion_eq]
  unfold create_biped_motion_checked
  simp only [author_stance_checked_eq, author_step0_checked_eq, author_step1_checked_eq,
    mirror_posture_checked_eq, Option.bind_eq_bind, Option.some_bind]

/-! ## Facts about deg2pulse -/

/-- The constant is a binary64 number of the binade [16, 32) (a 53-bit numerator over
`2^48`) and lies within half a unit in the last place of 29.63. -/
theorem STEPS_PER_DEG_nearest :
    STEPS_PER_DEG = 8340103559936737 / 2 ^ 48 ∧
    (2 : ℚ) ^ 52 ≤ 8340103559936737 ∧ (8340103559936737 : ℚ) < 2 ^ 53 ∧
    |STEPS_PER_DEG - 2963 / 100| < 1 / 2 ^ 49 := by
  unfold STEPS_PER_DEG
  refine ⟨by norm_num, by norm_num, by norm_num, ?_⟩
  rw [abs_lt]
  constructor <;> norm_num

theorem truncate_mono (v w : ℚ) (h : v ≤ w) : truncate v ≤ truncate w := by
  unfold truncate
  by_cases hv : 0 ≤ v
  · rw [if_pos hv, if_pos (le_trans hv h)]
    exact Int.floor_mono h
  · rw [if_neg hv]
    by_cases hw : 0 ≤ w
    · rw [if_pos hw]
      have h1 : ⌈v⌉ ≤ 0 := Int.ceil_le.mpr (by push_cast; exact le_of_lt (not_le.mp hv))
      have h2 : (0 : Int) ≤ ⌊w⌋ := Int.le_floor.mpr (by push_cast; exact hw)
      exact le_trans h1 h2
    · rw [if_neg hw]
      exact Int.ceil_mono h

theorem truncate_bounds (v : ℚ) (n : Int) (h1 : -(n : ℚ) ≤ v) (h2 : v ≤ n) :
    -n ≤ truncate v ∧ truncate v ≤ n := by
  unfold truncate
  split_ifs with hv
  · constructor
    · have : (0 : Int) ≤ ⌊v⌋ := Int.le_floor.mpr (by push_cast; exact hv)
      have hn : (0 : ℚ) ≤ n := le_trans hv h2
      have : (0 : Int) ≤ n := by exact_mod_cast hn
      omega
    · have h3 : ((⌊v⌋ : Int) : ℚ) ≤ (n : ℚ) := le_trans (Int.floor_le v) h2
      exact_mod_cast h3
  · constructor
    · have := Int.le_ceil v
      have h3 : ((-n : Int) : ℚ) ≤ ((⌈v⌉ : Int) : ℚ) := by
        push_cast
        exact le_trans h1 this
      exact_mod_cast h3
    · have h3 : ⌈v⌉ ≤ 0 := Int.ceil_le.mpr (by push_cast; exact le_of_lt (not_le.mp hv))
      have hn : (0 : ℚ) ≤ n := by
        have : v < 0 := not_le.mp hv
        linarith
      have : (0 : Int) ≤ n := by exact_mod_cast hn
      omega

theorem float_to_int_val (v : ℚ) (p : CInt) (h : float_to_int v = some p) :
    p.val = truncate v := by
  unfold float_to_int at h
  split_ifs at h
  simp only [Option.some.injEq] at h
  rw [← h]

theorem float_to_int_isSome (v : ℚ) :
    (float_to_int v).isSome = true ↔ INT_MIN ≤ truncate v ∧ truncate v ≤ INT_MAX := by
  unfold float_to_int
  split_ifs with h
  · simp [h]
  · simp [h]

/-- The floating value that `deg2pulse` converts is monotone in the angle, for monotone
roundings. -/
theorem pulse_value_mono (rm ra : ℚ → ℚ) (hm : Monotone rm) (ha : Monotone ra) (x y : ℚ)
    (h : x ≤ y) :
    ra ((CENTER_VALUE : ℚ) + rm (x * STEPS_PER_DEG))
      ≤ ra ((CENTER_VALUE : ℚ) + rm (y * STEPS_PER_DEG)) := by
  apply ha
  have hc : (0 : ℚ) ≤ STEPS_PER_DEG := by unfold STEPS_PER_DEG; norm_num
  have := hm (mul_le_mul_of_nonneg_right h hc)
  linarith

theorem float_to_int_of_range (v : ℚ) (h : INT_MIN ≤ truncate v ∧ truncate v ≤ INT_MAX) :
    ∃ p, float_to_int v = some p ∧ p.val = truncate v := by
  refine ⟨⟨truncate v, h⟩, ?_, rfl⟩
  unfold float_to_int
  rw [dif_pos h]

/-- For angles between -72000000 and 72000000 and roundings that are off by at most 1, the
floating value that `deg2pulse` converts lies between -2133367502 and 2133367502. -/
theorem pulse_value_bounds (rm ra : ℚ → ℚ)
    (hmacc : ∀ v : ℚ, |v| ≤ 4294967296 → |rm v - v| ≤ 1)
    (haacc : ∀ v : ℚ, |v| ≤ 4294967296 → |ra v - v| ≤ 1)
    (x : ℚ) (h1 : -72000000 ≤ x) (h2 : x ≤ 72000000) :
    -((2133367502 : Int) : ℚ) ≤ ra ((CENTER_VALUE : ℚ) + rm (x * STEPS_PER_DEG)) ∧
    ra ((CENTER_VALUE : ℚ) + rm (x * STEPS_PER_DEG)) ≤ ((2133367502 : Int) : ℚ) := by
  have hc0 : (0 : ℚ) ≤ STEPS_PER_DEG := by unfold STEPS_PER_DEG; norm_num
  have hc1 : STEPS_PER_DEG ≤ 2963 / 100 := by unfold STEPS_PER_DEG; norm_num
  have hu : x * STEPS_PER_DEG ≤ 2133360000 := by
    have := mul_le_mul_of_nonneg_right h2 hc0
    nlinarith
  have hl : -2133360000 ≤ x * STEPS_PER_DEG := by
    have := mul_le_mul_of_nonneg_right h1 hc0
    nlinarith
  have hm := abs_le.mp (hmacc (x * STEPS_PER_DEG) (abs_le.mpr ⟨by linarith, by linarith⟩))
  have hcv : (CENTER_VALUE : ℚ) = 7500 := by simp [CENTER_VALUE]
  have ha := abs_le.mp (haacc ((CENTER_VALUE : ℚ) + rm (x * STEPS_PER_DEG))
    (abs_le.mpr ⟨by rw [hcv]; linarith [hm.1, hm.2], by rw [hcv]; linarith [hm.1, hm.2]⟩))
  rw [hcv] at ha ⊢
  push_cast
  constructor
  · linarith [hm.1, hm.2, ha.1, ha.2]
  · linarith [hm.1, hm.2, ha.1, ha.2]

/-! ## What main dispatches when no dispatch fails -/

/-- With goal 70, the index computed at the top of iteration `t` of the loop (from 0). -/
theorem scenario_index (t : Nat) :
    (phase_index (run_ticks CYCLES_TO_GOAL t).current_step).val.toNat
      = (if t % 140 ≤ 70 then t % 140 else 140 - t % 140) % 4 := by
  have h := (run_ticks_triangle CYCLES_TO_GOAL (by decide) t).1
  rw [goal_val] at h
  rw [phase_index_val, h]
  unfold triangle
  simp only []
  split_ifs <;> omega

theorem dispatch_event_scenario (d : CInt → CInt) (r : CInt) (m : Mem) (t : Nat) :
    dispatch_event d r m 1 (run_ticks CYCLES_TO_GOAL t)
      = Event.send_posture
          (m (1 + (if t % 140 ≤ 70 then t % 140 else 140 - t % 140) % 4))
          (send_posture d r
            (m (1 + (if t % 140 ≤ 70 then t % 140 else 140 - t % 140) % 4))).1 := by
  unfold dispatch_event
  simp only [scenario_index]

/-- The events of `main` when no dispatch fails, the loop observed for `fuel`
iterations. -/
theorem main_no_failure_events (d : CInt → CInt) (rets : Nat → CInt) (m0 : Mem)
    (hok : ∀ k, 0 ≤ (rets k).val) (fuel : Nat) :
    (main d true rets m0 fuel).1
      = [Event.rcb4_init, Event.printf "Robot Connected.\n" [],
          Event.printf "Moving to Initial Position...\n" [],
          Event.send_posture (main_mem m0 0) (send_posture d (rets 0) (main_mem m0 0)).1,
          Event.sleep 1, Event.printf "Walking start... (Press Ctrl+C to stop)\n" []]
        ++ (List.range fuel).map (fun t =>
          Event.send_posture
            (main_mem m0 (1 + (if t % 140 ≤ 70 then t % 140 else 140 - t % 140) % 4))
            (send_posture d (rets (1 + t))
              (main_mem m0
                (1 + (if t % 140 ≤ 70 then t % 140 else 140 - t % 140) % 4))).1) := by
  have h0 : ¬ (send_posture d (rets 0) (main_mem m0 0)).2.val < 0 := by
    have := hok 0
    show ¬ (rets 0).val < 0
    omega
  unfold main
  simp only [Bool.not_true, Bool.false_eq_true, if_false, h0,
    walk_loop_no_failure d rets CYCLES_TO_GOAL (main_mem m0) 1 hok fuel 1 Walk.start]
  show _ ++ _ ++ (List.range fuel).map (fun t =>
      dispatch_event d (rets (1 + t)) (main_mem m0) 1 (run_ticks CYCLES_TO_GOAL t)) = _
  simp only [dispatch_event_scenario]
  rfl

/-! ## Claims -/

/-- C1 (as amended): for distinct source `a` and destination `b` and every mirrored pair
`(left, right) = (2i-1, 2i)`, `i = 2..11`, the destination after `mirror_posture(a, b)` has
`positions[left] = -a.positions[right]` whenever `a.positions[right]` is not `INT_MIN`, and
`positions[right] = -a.positions[left]` whenever `a.positions[left]` is not `INT_MIN`. -/
theorem mirror_posture_mirrors_pairs (m : Mem) (a b i : Nat) (hab : a ≠ b)
    (h2 : 2 ≤ i) (h11 : i ≤ 11) :
    (((m a).get (2 * i)).val ≠ INT_MIN →
      ((mirror_posture a b m b).get (2 * i - 1)).val = -((m a).get (2 * i)).val) ∧
    (((m a).get (2 * i - 1)).val ≠ INT_MIN →
      ((mirror_posture a b m b).get (2 * i)).val = -((m a).get (2 * i - 1)).val) := by
  have h := mirror_posture_pair a b i hab h2 h11 m
  refine ⟨fun hr => ?_, fun hl => ?_⟩
  · rw [h.1]; exact CInt.neg_val _ hr
  · rw [h.2]; exact CInt.neg_val _ hl

/-- C1, witness: mirroring object 0 of `mem_sample` (30 at joint 3, -100 at joint 4) into
object 1 gives 100 at joint 3 and -30 at joint 4. -/
theorem mirror_posture_mirrors_pairs_witness :
    ((mirror_posture 0 1 mem_sample 1).get 3).val = 100 ∧
    ((mirror_posture 0 1 mem_sample 1).get 4).val = -30 :=
  have h := mirror_posture_mirrors_pairs mem_sample 0 1 2 (by decide) (by decide) (by decide)
  ⟨(h.1 (by decide)).trans (by decide), (h.2 (by decide)).trans (by decide)⟩

/-- C1, counterexample: the source has `INT_MIN` at right joint 4; after
`mirror_posture` the destination's left joint 3 holds `INT_MIN` again, not the
negated angle 2147483648, which no `int` can hold. -/
theorem mirror_posture_int_min_counterexample :
    ((mem_int_min 0).get 4).val = -2147483648 ∧
    ((mirror_posture 0 1 mem_int_min 1).get 3).val = -2147483648 ∧
    ((mirror_posture 0 1 mem_int_min 1).get 3).val ≠ -((mem_int_min 0).get 4).val := by
  decide

/-- C10: after `mirror_posture(a, b)` the destination's speed and hold duration are those
of the source, for every memory content (so whatever `b` held before). -/
theorem mirror_posture_copies_timing (m : Mem) (a b : Nat) :
    (mirror_posture a b m b).speed = (m a).speed ∧
    (mirror_posture a b m b).wait_time_ms = (m a).wait_time_ms :=
  mirror_posture_timing a b m

/-- C9: with destinations distinct from sources, mirroring `a` into `b` and `b` into `c`
leaves in `c` the speed, the hold duration and the angle at every mirrored joint (3 to 22)
of `a`; and when `c` agreed with `a` at the un-paired slots 0, 1, 2, the whole of `a`. -/
theorem mirror_posture_involutive (m : Mem) (a b c : Nat) (hab : a ≠ b) (hbc : b ≠ c) :
    (mirror_posture b c (mirror_posture a b m) c).speed = (m a).speed ∧
    (mirror_posture b c (mirror_posture a b m) c).wait_time_ms = (m a).wait_time_ms ∧
    (∀ j, 3 ≤ j → j ≤ 22 →
      (mirror_posture b c (mirror_posture a b m) c).get j = (m a).get j) ∧
    ((∀ j, j < 3 → (m c).get j = (m a).get j) →
      mirror_posture b c (mirror_posture a b m) c = m a) := by
  have hs : (mirror_posture b c (mirror_posture a b m) c).speed = (m a).speed := by
    rw [(mirror_posture_timing b c _).1, (mirror_posture_timing a b m).1]
  have hw : (mirror_posture b c (mirror_posture a b m) c).wait_time_ms
      = (m a).wait_time_ms := by
    rw [(mirror_posture_timing b c _).2, (mirror_posture_timing a b m).2]
  refine ⟨hs, hw, fun j h3 h22 => mirror_twice_joint a b c j hab hbc h3 h22 m, fun hc => ?_⟩
  apply Posture.ext_get _ _ hs hw
  intro j hj
  by_cases h3 : 3 ≤ j
  · exact mirror_twice_joint a b c j hab hbc h3 (by have : j < 23 := hj; omega) m
  · rw [mirror_posture_unpaired b c j hbc (by omega),
      mirror_posture_frame a b c (fun h => hbc h.symm) m]
    exact hc j (by omega)

/-- C9, witness: object 0 of `mem_sample` mirrored into object 1 and from there into
object 2 (all zero before) leaves object 2 equal to object 0 at the mirrored joints 3 and
4, in speed and in hold duration. -/
theorem mirror_posture_involutive_witness :
    ((mirror_posture 1 2 (mirror_posture 0 1 mem_sample) 2).get 3).val = 30 ∧
    ((mirror_posture 1 2 (mirror_posture 0 1 mem_sample) 2).get 4).val = -100 ∧
    (mirror_posture 1 2 (mirror_posture 0 1 mem_sample) 2).speed.val = 200 ∧
    (mirror_posture 1 2 (mirror_posture 0 1 mem_sample) 2).wait_time_ms.val = 500 ∧
    mirror_posture 1 2 (mirror_posture 0 1 mem_sample) 2 = mem_sample 0 :=
  have h := mirror_posture_involutive mem_sample 0 1 2 (by decide) (by decide)
  ⟨(congrArg CInt.val (h.2.2.1 3 (by decide) (by decide))).trans (by decide),
    (congrArg CInt.val (h.2.2.1 4 (by decide) (by decide))).trans (by decide),
    (congrArg CInt.val h.1).trans (by decide),
    (congrArg CInt.val h.2.1).trans (by decide),
    h.2.2.2 (fun j hj => by
      have : j = 0 ∨ j = 1 ∨ j = 2 := by omega
      rcases this with rfl | rfl | rfl <;> decide)⟩

/-- C2 (as amended): for every home posture whose angles at joints 4 to 12 are not
`INT_MIN`, the cycle that `create_biped_motion` returns has the even length 4 (it writes
no object but `*init_pose` and `steps[0..3]`), and for `k` in {0, 1} and every mirrored pair
`(left, right) = (2i-1, 2i)`, `steps[k+2].positions[left] = -steps[k].positions[right]`,
`steps[k+2].positions[right] = -steps[k].positions[left]`, and `steps[k+2]` has the speed
and the hold duration of `steps[k]`. -/
theorem create_biped_motion_mirrored (m : Mem) (steps init_pose : Nat)
    (h : ∀ j, 4 ≤ j → j ≤ 12 → ((m init_pose).get j).val ≠ INT_MIN) :
    STEP_SIZE = 4 ∧ STEP_SIZE % 2 = 0 ∧
    (∀ q, q ≠ init_pose → (q < steps ∨ steps + STEP_SIZE ≤ q) →
      create_biped_motion steps init_pose m q = m q) ∧
    ∀ k, k < 2 →
      (create_biped_motion steps init_pose m (steps + (k + 2))).speed
        = (create_biped_motion steps init_pose m (steps + k)).speed ∧
      (create_biped_motion steps init_pose m (steps + (k + 2))).wait_time_ms
        = (create_biped_motion steps init_pose m (steps + k)).wait_time_ms ∧
      ∀ i, 2 ≤ i → i ≤ 11 →
        ((create_biped_motion steps init_pose m (steps + (k + 2))).get (2 * i - 1)).val
          = -((create_biped_motion steps init_pose m (steps + k)).get (2 * i)).val ∧
        ((create_biped_motion steps init_pose m (steps + (k + 2))).get (2 * i)).val
          = -((create_biped_motion steps init_pose m (steps + k)).get (2 * i - 1)).val := by
  refine ⟨rfl, rfl, fun q hq hs => create_biped_motion_frame steps init_pose q m hq hs,
    fun k hk => ?_⟩
  have h0 := create_biped_motion_pairs steps init_pose k 2 m hk (by decide) (by decide)
  refine ⟨h0.2.2.2.1, h0.2.2.2.2, fun i h2 h11 => ?_⟩
  have hp := create_biped_motion_pairs steps init_pose k i m hk h2 h11
  have hr := authored_not_int_min steps init_pose m h k (2 * i) hk (by omega) (by omega)
  have hl := authored_not_int_min steps init_pose m h k (2 * i - 1) hk (by omega) (by omega)
  rw [← hp.1] at hr hl
  rw [hp.2.1, hp.2.2.1]
  exact ⟨CInt.neg_val _ hr, CInt.neg_val _ hl⟩

/-- C2, witness: with the home posture of `mem_sample` at address 0 and the cycle at
addresses 1 to 4, phase 2 holds at left joint 3 the negated right-shoulder angle -100 of
phase 0, and phase 3 holds at left joint 21 the negated right-foot angle -9 of phase 1. -/
theorem create_biped_motion_mirrored_witness :
    ((create_biped_motion 1 0 mem_sample 3).get 3).val = 100 ∧
    ((create_biped_motion 1 0 mem_sample 4).get 21).val = 9 ∧
    (create_biped_motion 1 0 mem_sample 3).speed
      = (create_biped_motion 1 0 mem_sample 1).speed :=
  have h := create_biped_motion_mirrored mem_sample 1 0 (fun j h4 h12 => by
    interval_cases j <;> decide)
  ⟨((h.2.2.2 0 (by decide)).2.2 2 (by decide) (by decide)).1.trans (by decide),
    ((h.2.2.2 1 (by decide)).2.2 11 (by decide) (by decide)).1.trans (by decide),
    (h.2.2.2 0 (by decide)).1⟩

/-- C2, counterexample: the home posture has `INT_MIN` at right joint 4, which the
authoring of phase 0 leaves alone; phase 2 then holds `INT_MIN` at left joint 3, not the
negated angle 2147483648. -/
theorem create_biped_motion_int_min_counterexample :
    ((create_biped_motion 1 0 mem_int_min 1).get 4).val = -2147483648 ∧
    ((create_biped_motion 1 0 mem_int_min 3).get 3).val = -2147483648 ∧
    ((create_biped_motion 1 0 mem_int_min 3).get 3).val
      ≠ -((create_biped_motion 1 0 mem_int_min 1).get 4).val := by
  decide

/-- C3: for every goal `G > 0`, from `progress = 0`, `dir = +1`: after `n < G` ticks
`progress = n` and `dir = +1`; after exactly `G` ticks `progress = G` and `dir = -1`; after
`n` ticks with `G ≤ n < 2G`, `progress = 2G - n > 0` and `dir = -1`; after exactly `2G`
ticks `progress = 0` and `dir = +1`. -/
theorem sequencer_triangle_wave (G : CInt) (hG : 0 < G.val) :
    (∀ n : Nat, (n : Int) < G.val →
      (run_ticks G n).current_step.val = n ∧ (run_ticks G n).current_step.val < G.val ∧
      (run_ticks G n).sgn.val = 1) ∧
    ((run_ticks G G.val.toNat).current_step.val = G.val ∧
      (run_ticks G G.val.toNat).sgn.val = -1) ∧
    (∀ n : Nat, G.val ≤ n → (n : Int) < 2 * G.val →
      (run_ticks G n).current_step.val = 2 * G.val - n ∧
      0 < (run_ticks G n).current_step.val ∧ (run_ticks G n).sgn.val = -1) ∧
    ((run_ticks G (2 * G.val.toNat)).current_step.val = 0 ∧
      (run_ticks G (2 * G.val.toNat)).sgn.val = 1) := by
  refine ⟨fun n hn => ?_, ?_, fun n h1 h2 => ?_, ?_⟩
  · have h := (run_ticks_first_period G hG n).1 hn
    exact ⟨h.1, by rw [h.1]; exact hn, h.2⟩
  · have h := (run_ticks_first_period G hG G.val.toNat).2.1 (by omega) (by omega)
    exact ⟨by rw [h.1]; omega, h.2⟩
  · have h := (run_ticks_first_period G hG n).2.1 h1 h2
    exact ⟨h.1, by rw [h.1]; omega, h.2⟩
  · exact (run_ticks_first_period G hG (2 * G.val.toNat)).2.2 (by push_cast; omega)

/-- C3, witness: with goal 3 the loop variables after 0, 1, 2, 3, 4, 5, 6 ticks are
(0,+1), (1,+1), (2,+1), (3,-1), (2,-1), (1,-1), (0,+1). -/
theorem sequencer_triangle_wave_witness :
    ((run_ticks (CInt.lit 3) 2).current_step.val = 2 ∧
      (run_ticks (CInt.lit 3) 2).sgn.val = 1) ∧
    ((run_ticks (CInt.lit 3) 3).current_step.val = 3 ∧
      (run_ticks (CInt.lit 3) 3).sgn.val = -1) ∧
    ((run_ticks (CInt.lit 3) 5).current_step.val = 1 ∧
      (run_ticks (CInt.lit 3) 5).sgn.val = -1) ∧
    ((run_ticks (CInt.lit 3) 6).current_step.val = 0 ∧
      (run_ticks (CInt.lit 3) 6).sgn.val = 1) :=
  have h := sequencer_triangle_wave (CInt.lit 3) (by decide)
  ⟨⟨(h.1 2 (by decide)).1, (h.1 2 (by decide)).2.2⟩, h.2.1,
    ⟨(h.2.2.1 5 (by decide) (by decide)).1.trans (by decide),
      (h.2.2.1 5 (by decide) (by decide)).2.2⟩, h.2.2.2⟩

/-- C4: for every goal `G > 0`, the loop variables after any number of ticks from
`progress = 0`, `dir = +1` satisfy `0 ≤ progress ≤ G` and `dir` is `+1` or `-1`. -/
theorem sequencer_state_bounds (G : CInt) (hG : 0 < G.val) (n : Nat) :
    0 ≤ (run_ticks G n).current_step.val ∧ (run_ticks G n).current_step.val ≤ G.val ∧
    ((run_ticks G n).sgn.val = 1 ∨ (run_ticks G n).sgn.val = -1) := by
  have h := run_ticks_invariant G hG n
  omega

/-- C4, witness: with goal 3, after 4 ticks `progress = 2` lies in `[0, 3]` and
`dir = -1`. -/
theorem sequencer_state_bounds_witness :
    0 ≤ (run_ticks (CInt.lit 3) 4).current_step.val ∧
    (run_ticks (CInt.lit 3) 4).current_step.val ≤ (CInt.lit 3).val ∧
    ((run_ticks (CInt.lit 3) 4).sgn.val = 1 ∨ (run_ticks (CInt.lit 3) 4).sgn.val = -1) :=
  sequencer_state_bounds (CInt.lit 3) (by decide) 4

/-- C5: for every `int` value of `current_step`, negative ones included, the index
computed with the truncating `%` and the add-4 fix-up is the mathematical
`current_step mod 4`, and lies in `[0, 4)`. -/
theorem phase_index_is_mod (c : CInt) :
    (phase_index c).val = c.val % (STEP_SIZE : Int) ∧
    0 ≤ (phase_index c).val ∧ (phase_index c).val < (STEP_SIZE : Int) := by
  show (phase_index c).val = c.val % 4 ∧ 0 ≤ (phase_index c).val ∧ (phase_index c).val < 4
  rw [phase_index_val]
  omega

/-- C6: with cycle length 4 and goal 70, when no dispatch fails: the loop never ends, its
iteration `t` (from 0) dispatches `walk_cycle[idx]` for the index `idx` of the state after
`t` ticks; on tick `k ≤ 70` that index is `(k-1) mod 4`; `dir` is `+1` before tick 70 and
`-1` at tick 70; from tick 70 to tick 140 `progress` is positive and decrements on every
tick; at tick 140 `progress = 0` and `dir = +1`; and the states repeat with period 140.
The events of `main` are the six of the start-up and then, for tick `t + 1`, the call
`send_posture(conn, walk_cycle[p mod 4])` with `p` the triangle wave of `t` (period 140,
height 70), answered by `rets (1 + t)`; for `k ≤ 70` the event of tick `k` is the call
with `walk_cycle[(k-1) mod 4]`. -/
theorem walking_scenario (d : CInt → CInt) (rets : Nat → CInt) (m0 : Mem)
    (hok : ∀ k, 0 ≤ (rets k).val) :
    STEP_SIZE = 4 ∧ CYCLES_TO_GOAL.val = 70 ∧
    (∀ fuel, (main d true rets m0 fuel).2 = none) ∧
    (∀ fuel, walk_loop d rets CYCLES_TO_GOAL (main_mem m0) 1 fuel 1 Walk.start
      = ((List.range fuel).map (fun t =>
          dispatch_event d (rets (1 + t)) (main_mem m0) 1 (run_ticks CYCLES_TO_GOAL t)),
        false)) ∧
    (∀ k : Nat, 1 ≤ k → k ≤ 70 →
      (run_ticks CYCLES_TO_GOAL (k - 1)).current_step.val = ((k - 1 : Nat) : Int) ∧
      (phase_index (run_ticks CYCLES_TO_GOAL (k - 1)).current_step).val
        = ((k - 1 : Nat) : Int) % 4) ∧
    (∀ n : Nat, n < 70 → (run_ticks CYCLES_TO_GOAL n).sgn.val = 1) ∧
    (run_ticks CYCLES_TO_GOAL 70).sgn.val = -1 ∧
    (∀ n : Nat, 70 ≤ n → n < 140 →
      (run_ticks CYCLES_TO_GOAL n).sgn.val = -1 ∧
      0 < (run_ticks CYCLES_TO_GOAL n).current_step.val ∧
      (run_ticks CYCLES_TO_GOAL (n + 1)).current_step.val
        = (run_ticks CYCLES_TO_GOAL n).current_step.val - 1) ∧
    ((run_ticks CYCLES_TO_GOAL 140).current_step.val = 0 ∧
      (run_ticks CYCLES_TO_GOAL 140).sgn.val = 1) ∧
    (∀ n : Nat, run_ticks CYCLES_TO_GOAL (n + 140) = run_ticks CYCLES_TO_GOAL n) ∧
    (∀ fuel, (main d true rets m0 fuel).1
      = [Event.rcb4_init, Event.printf "Robot Connected.\n" [],
          Event.printf "Moving to Initial Position...\n" [],
          Event.send_posture (main_mem m0 0) (send_posture d (rets 0) (main_mem m0 0)).1,
          Event.sleep 1, Event.printf "Walking start... (Press Ctrl+C to stop)\n" []]
        ++ (List.range fuel).map (fun t =>
          Event.send_posture
            (main_mem m0 (1 + (if t % 140 ≤ 70 then t % 140 else 140 - t % 140) % 4))
            (send_posture d (rets (1 + t))
              (main_mem m0
                (1 + (if t % 140 ≤ 70 then t % 140 else 140 - t % 140) % 4))).1)) ∧
    (∀ fuel k : Nat, 1 ≤ k → k ≤ 70 → k ≤ fuel →
      (main d true rets m0 fuel).1[5 + k]?
        = some (Event.send_posture (main_mem m0 (1 + (k - 1) % 4))
            (send_posture d (rets k) (main_mem m0 (1 + (k - 1) % 4))).1)) := by
  have hG : 0 < CYCLES_TO_GOAL.val := by decide
  have hper := run_ticks_first_period CYCLES_TO_GOAL hG
  rw [goal_val] at hper
  refine ⟨rfl, rfl, main_no_failure d rets m0 hok,
    fun fuel => walk_loop_no_failure d rets CYCLES_TO_GOAL (main_mem m0) 1 hok fuel 1 _,
    fun k h1 h70 => ?_, fun n hn => ((hper n).1 (by omega)).2,
    ((hper 70).2.1 (by decide) (by decide)).2, fun n h1 h2 => ?_,
    (hper 140).2.2 (by decide), fun n => run_ticks_period CYCLES_TO_GOAL hG n,
    main_no_failure_events d rets m0 hok, fun fuel k h1 h70 hf => ?_⟩
  rotate_left 2
  · have hidx : (if (k - 1) % 140 ≤ 70 then (k - 1) % 140 else 140 - (k - 1) % 140) % 4
        = (k - 1) % 4 := by
      split_ifs <;> omega
    have hk : 1 + (k - 1) = k := by omega
    rw [main_no_failure_events d rets m0 hok fuel,
      List.getElem?_append_right (by show 6 ≤ 5 + k; omega), List.getElem?_map,
      show 5 + k - [Event.rcb4_init, Event.printf "Robot Connected.\n" [],
          Event.printf "Moving to Initial Position...\n" [],
          Event.send_posture (main_mem m0 0) (send_posture d (rets 0) (main_mem m0 0)).1,
          Event.sleep 1,
          Event.printf "Walking start... (Press Ctrl+C to stop)\n" []].length = k - 1 from by
        show 5 + k - 6 = k - 1
        omega,
      List.getElem?_range (by omega), Option.map_some', hidx, hk]
  · have h := ((hper (k - 1)).1 (by omega)).1
    exact ⟨h, by rw [phase_index_val, h]⟩
  · have h := (hper n).2.1 (by omega) (by omega)
    refine ⟨h.2, by omega, ?_⟩
    by_cases hn : n + 1 < 140
    · have h' := (hper (n + 1)).2.1 (by push_cast; omega) (by push_cast; omega)
      rw [h'.1, h.1]
      push_cast
      omega
    · have h' := (hper (n + 1)).2.2 (by push_cast; omega)
      rw [h'.1, h.1]
      omega

/-- C6, witness: every `rcb4_send_command` answering 0, the run never returns; tick 7
dispatches index 2, and the event of tick 7 among those of `main` is the call with
`walk_cycle[2]`; `dir` is `-1` after tick 70 and `progress` is 0 after tick 140. -/
theorem walking_scenario_witness :
    (main (fun x => x) true (fun _ => CInt.lit 0) mem_sample 5).2 = none ∧
    (phase_index (run_ticks CYCLES_TO_GOAL (7 - 1)).current_step).val = 2 ∧
    (run_ticks CYCLES_TO_GOAL 70).sgn.val = -1 ∧
    (run_ticks CYCLES_TO_GOAL 140).current_step.val = 0 ∧
    (main (fun x => x) true (fun _ => CInt.lit 0) mem_sample 9).1[5 + 7]?
      = some (Event.send_posture (main_mem mem_sample (1 + (7 - 1) % 4))
          (send_posture (fun x => x) (CInt.lit 0)
            (main_mem mem_sample (1 + (7 - 1) % 4))).1) :=
  have h := walking_scenario (fun x => x) (fun _ => CInt.lit 0) mem_sample
    (fun _ => by show (0 : Int) ≤ (CInt.lit 0).val; decide)
  ⟨h.2.2.1 5, ((h.2.2.2.2.1 7 (by decide) (by decide)).2).trans (by decide),
    h.2.2.2.2.2.2.1, h.2.2.2.2.2.2.2.2.1.1,
    h.2.2.2.2.2.2.2.2.2.2.2 9 7 (by decide) (by decide) (by decide)⟩

/-- C7: the `rcb4_command_set_servo` calls of `send_posture` are for exactly the joint IDs
`i` in 1..22 with `p.positions[i] != 0` or `i = HEAD`, in ascending order and each once,
with target `deg2pulse(p.positions[i])`; the head is among them whatever its angle, and no
other joint of angle 0 is. -/
theorem send_posture_joint_selection (d : CInt → CInt) (ret : CInt) (p : Posture) :
    commanded_joints (send_posture d ret p).1
      = (List.range' 1 22).filter (fun i => decide ((p.get i).val ≠ 0 ∨ i = HEAD)) ∧
    (∀ i, i ∈ commanded_joints (send_posture d ret p).1
      ↔ 1 ≤ i ∧ i ≤ 22 ∧ ((p.get i).val ≠ 0 ∨ i = HEAD)) ∧
    (commanded_joints (send_posture d ret p).1).Pairwise (fun i j => i < j) ∧
    (∀ id mode pulse, BusCall.command_set_servo id mode pulse ∈ (send_posture d ret p).1 →
      pulse = d (p.get id)) ∧
    HEAD ∈ commanded_joints (send_posture d ret p).1 ∧
    (∀ i, i ≠ HEAD → (p.get i).val = 0 → i ∉ commanded_joints (send_posture d ret p).1) := by
  have hmem : ∀ i, i ∈ commanded_joints (send_posture d ret p).1
      ↔ 1 ≤ i ∧ i ≤ 22 ∧ ((p.get i).val ≠ 0 ∨ i = HEAD) := by
    intro i
    rw [send_posture_commanded, List.mem_filter, List.mem_range'_1, decide_eq_true_iff]
    omega
  refine ⟨send_posture_commanded d ret p, hmem, ?_, ?_, ?_, ?_⟩
  · rw [send_posture_commanded]
    exact (List.pairwise_lt_range' 1 22).filter _
  · intro id mode pulse h
    unfold send_posture at h
    simp only [List.mem_append, List.mem_cons, List.mem_singleton, List.not_mem_nil,
      or_false, false_or] at h
    rcases h with (h | h) | h
    · rcases h with h | h <;> cases h
    · exact (servo_call_pulse d p _ id mode pulse h).2
    · rcases h with h | h | h <;> cases h
  · exact (hmem HEAD).2 ⟨by decide, by decide, Or.inr rfl⟩
  · intro i hi h0 hin
    rcases ((hmem i).1 hin).2.2 with h | h
    · exact h h0
    · exact hi h

/-- C8: after a successful connect, if the first failing dispatch is the `k`-th (the
initial-stance dispatch being the first), then, observed for at least `k - 1` loop
iterations, `main` has returned, its events hold exactly `k` calls of `send_posture` and
exactly one call of `rcb4_deinit`, which is the last event; and when `k = 1` the only
dispatch is that of the initial stance. -/
theorem dispatch_failure_terminates (d : CInt → CInt) (rets : Nat → CInt) (m0 : Mem)
    (k fuel : Nat) (hk : 1 ≤ k) (hfail : (rets (k - 1)).val < 0)
    (hok : ∀ j, j < k - 1 → 0 ≤ (rets j).val) (hfuel : k - 1 ≤ fuel) :
    (main d true rets m0 fuel).2
      = some (if k = 1 then (CInt.lit 1).neg else CInt.lit 0) ∧
    (main d true rets m0 fuel).1.countP Event.isDispatch = k ∧
    (main d true rets m0 fuel).1.countP Event.isRelease = 1 ∧
    (main d true rets m0 fuel).1.getLast? = some Event.rcb4_deinit ∧
    (k = 1 → (main d true rets m0 fuel).1
      = [Event.rcb4_init, Event.printf "Robot Connected.\n" [],
          Event.printf "Moving to Initial Position...\n" [],
          Event.send_posture (main_mem m0 0) (send_posture d (rets 0) (main_mem m0 0)).1,
          Event.printf "Init failed.\n" [], Event.rcb4_deinit]) := by
  by_cases h1 : k = 1
  · subst h1
    rw [main_init_failure d rets m0 fuel hfail]
    exact ⟨rfl, rfl, rfl, rfl, fun _ => rfl⟩
  · have hloop := walk_loop_failure d rets CYCLES_TO_GOAL (main_mem m0) 1 (k - 2) fuel 1
      Walk.start (by omega) (by rw [show 1 + (k - 2) = k - 1 by omega]; exact hfail)
      (fun t ht => hok (1 + t) (by omega))
    rw [main_loop_exit d rets m0 fuel (hok 0 (by omega)) hloop.1]
    refine ⟨by rw [if_neg h1], ?_, ?_, ?_, fun h => absurd h h1⟩
    · simp only [List.countP_append, hloop.2.1]
      simp only [List.countP_cons, List.countP_nil, Event.isDispatch]
      simp
      omega
    · simp only [List.countP_append, hloop.2.2]
      simp only [List.countP_cons, List.countP_nil, Event.isRelease]
      simp
    · exact List.getLast?_concat _

/-- C8, witness: the third dispatch (the second of the gait) fails; observed for 5 loop
iterations, `main` has returned 0 after exactly 3 dispatches and one release. -/
theorem dispatch_failure_terminates_witness :
    (main (fun x => x) true (fun j => if j = 2 then (CInt.lit 1).neg else CInt.lit 0)
      mem_sample 5).2 = some (CInt.lit 0) ∧
    (main (fun x => x) true (fun j => if j = 2 then (CInt.lit 1).neg else CInt.lit 0)
      mem_sample 5).1.countP Event.isDispatch = 3 ∧
    (main (fun x => x) true (fun j => if j = 2 then (CInt.lit 1).neg else CInt.lit 0)
      mem_sample 5).1.countP Event.isRelease = 1 :=
  have h := dispatch_failure_terminates (fun x => x)
    (fun j => if j = 2 then (CInt.lit 1).neg else CInt.lit 0) mem_sample 3 5 (by decide)
    (by decide) (fun j hj => by
      have : j = 0 ∨ j = 1 := by omega
      rcases this with rfl | rfl <;> decide) (by decide)
  ⟨h.1, h.2.1, h.2.2.1⟩

/-- C11: `mirror_posture(a, b)` leaves the un-paired position slots of `b` as they were:
slot 0, the head (ID 1) and the waist (ID 2) hold after the call what `b` held before, for
every memory content and every pair of pointers; and no object but `*b` is written. -/
theorem mirror_posture_keeps_unpaired (m : Mem) (a b : Nat) :
    (mirror_posture a b m b).get 0 = (m b).get 0 ∧
    (mirror_posture a b m b).get HEAD = (m b).get HEAD ∧
    (mirror_posture a b m b).get WAIST = (m b).get WAIST ∧
    (∀ pr ∈ mirror_pairs, 0 ≠ pr.1 ∧ 0 ≠ pr.2 ∧ HEAD ≠ pr.1 ∧ HEAD ≠ pr.2 ∧
      WAIST ≠ pr.1 ∧ WAIST ≠ pr.2) ∧
    (∀ q, q ≠ b → mirror_posture a b m q = m q) :=
  ⟨mirror_posture_slot_frame a b 0 (Or.inl (by decide)) m,
    mirror_posture_slot_frame a b HEAD (Or.inl (by decide)) m,
    mirror_posture_slot_frame a b WAIST (Or.inl (by decide)) m,
    by decide,
    fun q hq => mirror_posture_frame a b q hq m⟩

/-- C12 (as amended): the joint mirror map of `mirror_posture` consists of 10 left/right
joint-ID pairs, the ten pairs of limb joints of the servo ID table, and its members are
exactly the joint IDs 1..22 other than the head and the waist; the loop of
`mirror_posture` is the fold of its body over these pairs. -/
theorem mirror_pairs_table :
    mirror_pairs
      = [(L_SHLDR_P, R_SHLDR_P), (L_SHLDR_R, R_SHLDR_R), (L_ELBW_Y, R_ELBW_Y),
         (L_ELBW_P, R_ELBW_P), (L_TIGHT_Y, R_TIGHT_Y), (L_TIGHT_R, R_TIGHT_R),
         (L_TIGHT_P, R_TIGHT_P), (L_KNEE, R_KNEE), (L_FOOT_P, R_FOOT_P),
         (L_FOOT_R, R_FOOT_R)] ∧
    mirror_pairs.length = 10 ∧
    (∀ j, 1 ≤ j → j ≤ 22 →
      ((∃ pr ∈ mirror_pairs, j = pr.1 ∨ j = pr.2) ↔ (j ≠ HEAD ∧ j ≠ WAIST))) ∧
    (∀ (a b : Nat) (m : Mem), mirror_posture a b m
      = mirror_pairs.foldl (mirror_write a b)
          ((m.setSpeed b (m a).speed).setWait b
            ((m.setSpeed b (m a).speed) a).wait_time_ms)) := by
  refine ⟨by decide, by decide, fun j h1 h22 => ?_, mirror_posture_eq_pairs⟩
  interval_cases j <;> decide

/-- C12, counterexample: the mirror map has 10 pairs, not 11; the pair that would make
the eleventh, (head, waist) = (1, 2), is not in it. -/
theorem mirror_pairs_count_counterexample :
    mirror_pairs.length = 10 ∧ mirror_pairs.length ≠ 11 ∧ (HEAD, WAIST) ∉ mirror_pairs := by
  decide

/-- C17 (as amended): when `mirror_posture` is applied in place, for every mirrored pair
`(left, right) = (2i-1, 2i)` the result has `positions[left] = -old positions[right]`
whenever the old `positions[right]` is not `INT_MIN`, and `positions[right]` is the old
`positions[right]`; so `positions[right] = -old positions[left]` holds exactly when
`old positions[right] = -old positions[left]`. -/
theorem mirror_posture_in_place (m : Mem) (p i : Nat) (h2 : 2 ≤ i) (h11 : i ≤ 11) :
    (((m p).get (2 * i)).val ≠ INT_MIN →
      ((mirror_posture p p m p).get (2 * i - 1)).val = -((m p).get (2 * i)).val) ∧
    (mirror_posture p p m p).get (2 * i) = (m p).get (2 * i) ∧
    (((mirror_posture p p m p).get (2 * i)).val = -((m p).get (2 * i - 1)).val
      ↔ ((m p).get (2 * i)).val = -((m p).get (2 * i - 1)).val) := by
  have h := mirror_posture_alias_pair p i h2 h11 m
  refine ⟨fun hr => ?_, h.2, by rw [h.2]⟩
  rw [h.1]
  exact CInt.neg_val _ hr

/-- C17, witness: mirroring object 0 of `mem_sample` (30 at joint 3, -100 at joint 4) in
place gives 100 at joint 3 and leaves -100 at joint 4, so joint 4 is not the negated old
joint 3. -/
theorem mirror_posture_in_place_witness :
    ((mirror_posture 0 0 mem_sample 0).get 3).val = 100 ∧
    ((mirror_posture 0 0 mem_sample 0).get 4).val = -100 ∧
    ((mirror_posture 0 0 mem_sample 0).get 4).val ≠ -((mem_sample 0).get 3).val :=
  have h := mirror_posture_in_place mem_sample 0 2 (by decide) (by decide)
  ⟨(h.1 (by decide)).trans (by decide), (congrArg CInt.val h.2.1).trans (by decide),
    fun hc => absurd (h.2.2.1 hc) (by decide)⟩

/-- C17, counterexample: the posture has `INT_MIN` at right joint 4; mirrored in place,
its left joint 3 holds `INT_MIN`, not the negated angle 2147483648. -/
theorem mirror_posture_in_place_int_min_counterexample :
    ((mem_int_min 0).get 4).val = -2147483648 ∧
    ((mirror_posture 0 0 mem_int_min 0).get 3).val = -2147483648 ∧
    ((mirror_posture 0 0 mem_int_min 0).get 3).val ≠ -((mem_int_min 0).get 4).val := by
  decide

/-- C19: whatever the posture held before, `init_posture_data` leaves it with angle 0 at
each of its 23 joint slots, speed 350 and hold duration 1000 ms, which is not negative;
so in `main` every joint of `init_pose` that `create_biped_motion` does not author is 0. -/
theorem init_posture_data_defaults (m : Mem) (p : Nat) :
    (∀ j, j < MAX_SERVO_ID → ((init_posture_data p m p).get j).val = 0) ∧
    (init_posture_data p m p).speed.val = 350 ∧
    (init_posture_data p m p).wait_time_ms.val = 1000 ∧
    0 ≤ (init_posture_data p m p).wait_time_ms.val ∧
    (∀ q, q ≠ p → init_posture_data p m q = m q) ∧
    (∀ (m0 : Mem) (j : Nat), j < MAX_SERVO_ID →
      j ∉ [L_SHLDR_P, L_TIGHT_P, L_KNEE, L_FOOT_P, R_TIGHT_R, L_TIGHT_R, R_TIGHT_P, R_KNEE,
        R_FOOT_P] →
      ((main_mem m0 0).get j).val = 0) := by
  have h := init_posture_data_dest p m
  refine ⟨fun j hj => by rw [h.1 j hj]; rfl, by rw [h.2.1]; rfl, by rw [h.2.2]; rfl,
    by rw [h.2.2]; decide, fun q hq => init_posture_data_frame p q m hq,
    fun m0 j hj hn => ?_⟩
  rw [main_mem_init_pose, author_stance_init]
  have h0 := (init_posture_data_dest 0 m0).1 j hj
  simp only [List.mem_cons, List.mem_singleton, List.not_mem_nil, or_false, not_or] at hn
  simp only [Posture.get_set]
  rw [if_neg (fun hc => hn.2.2.2.2.2.2.2.2 hc.1), if_neg (fun hc => hn.2.2.2.2.2.2.2.1 hc.1),
    if_neg (fun hc => hn.2.2.2.2.2.2.1 hc.1), if_neg (fun hc => hn.2.2.2.2.2.1 hc.1),
    if_neg (fun hc => hn.2.2.2.2.1 hc.1), if_neg (fun hc => hn.2.2.2.1 hc.1),
    if_neg (fun hc => hn.2.2.1 hc.1), if_neg (fun hc => hn.2.1 hc.1),
    if_neg (fun hc => hn.1 hc.1), h0]
  rfl

/-- C16 (as amended): each of the four phases that `create_biped_motion` returns has the
home posture's values at the un-paired slots 0, head and waist; and when the home posture
`*init_pose` is an object outside `steps[0..3]`, it also has the speed and the hold
duration of the home posture. -/
theorem create_biped_motion_inherits_home (m : Mem) (steps init_pose k : Nat)
    (hk : k < STEP_SIZE) :
    ((init_pose < steps ∨ steps + STEP_SIZE ≤ init_pose) →
      (create_biped_motion steps init_pose m (steps + k)).speed = (m init_pose).speed ∧
      (create_biped_motion steps init_pose m (steps + k)).wait_time_ms
        = (m init_pose).wait_time_ms) ∧
    (create_biped_motion steps init_pose m (steps + k)).get 0 = (m init_pose).get 0 ∧
    (create_biped_motion steps init_pose m (steps + k)).get HEAD
      = (m init_pose).get HEAD ∧
    (create_biped_motion steps init_pose m (steps + k)).get WAIST
      = (m init_pose).get WAIST := by
  have hk4 : k < 4 := hk
  exact ⟨fun hsep => create_biped_motion_timing steps init_pose k m hsep hk4,
    create_biped_motion_unpaired steps init_pose k 0 m hk4 (by decide),
    create_biped_motion_unpaired steps init_pose k HEAD m hk4 (by decide),
    create_biped_motion_unpaired steps init_pose k WAIST m hk4 (by decide)⟩

/-- C16, witness: with the home posture of `mem_sample` (speed 200, hold duration 500) at
address 0 and the cycle at addresses 1 to 4, the mirrored phase 3 has speed 200, hold
duration 500 and the home posture's head angle. -/
theorem create_biped_motion_inherits_home_witness :
    (create_biped_motion 1 0 mem_sample (1 + 3)).speed.val = 200 ∧
    (create_biped_motion 1 0 mem_sample (1 + 3)).wait_time_ms.val = 500 ∧
    (create_biped_motion 1 0 mem_sample (1 + 3)).get HEAD = (mem_sample 0).get HEAD :=
  have h := create_biped_motion_inherits_home mem_sample 1 0 3 (by decide)
  ⟨(congrArg CInt.val (h.1 (by decide)).1).trans (by decide),
    (congrArg CInt.val (h.1 (by decide)).2).trans (by decide), h.2.2.1⟩

/-- C16, counterexample: the home posture (speed 200, hold duration 500) is passed as
`&steps[3]`; the seeding loop then writes speed 350 and hold duration 1000 into it before
phase 0 is copied from it, and phase 0 comes out with speed 350 and hold duration 1000,
not those of the home posture. -/
theorem create_biped_motion_alias_counterexample :
    (mem_home_in_cycle (0 + 3)).speed.val = 200 ∧
    (mem_home_in_cycle (0 + 3)).wait_time_ms.val = 500 ∧
    (create_biped_motion 0 (0 + 3) mem_home_in_cycle (0 + 0)).speed.val = 350 ∧
    (create_biped_motion 0 (0 + 3) mem_home_in_cycle (0 + 0)).wait_time_ms.val = 1000 ∧
    (create_biped_motion 0 (0 + 3) mem_home_in_cycle (0 + 0)).speed
      ≠ (mem_home_in_cycle (0 + 3)).speed := by
  decide

/-- C14: every call of `send_posture` makes exactly one `rcb4_command_create`, as its first
library call, and exactly one `rcb4_command_delete`, right after `rcb4_send_command` and
before it returns, whatever `rcb4_send_command` answered; and it returns that answer. -/
theorem send_posture_buffer_lifecycle (d : CInt → CInt) (ret : CInt) (p : Posture) :
    (send_posture d ret p).2 = ret ∧
    (send_posture d ret p).1.countP BusCall.isCreate = 1 ∧
    (send_posture d ret p).1.countP BusCall.isDelete = 1 ∧
    ∃ servos : List BusCall,
      (∀ c ∈ servos, c.isSetServo = true) ∧
      (send_posture d ret p).1
        = [BusCall.command_create, BusCall.command_set_speed p.speed] ++ servos
          ++ [BusCall.send_command, BusCall.command_delete,
              BusCall.util_usleep (p.wait_time_ms.mul (CInt.lit 1000))] := by
  refine ⟨rfl, ?_, ?_, (List.range' 1 (MAX_SERVO_ID - 1)).flatMap (servo_call d p),
    fun c hc => servo_calls_kind d p _ c hc, rfl⟩
  · unfold send_posture
    simp only [List.countP_append,
      countP_servo_calls d p _ BusCall.isCreate (fun c hc => by cases c <;> first | rfl | cases hc)]
    rfl
  · unfold send_posture
    simp only [List.countP_append,
      countP_servo_calls d p _ BusCall.isDelete (fun c hc => by cases c <;> first | rfl | cases hc)]
    rfl

/-- C15: for every goal `G > 0`, when no dispatch fails, iteration `t` of the loop (from 0)
dispatches the phase of the state after `t` ticks, whose `progress` is the triangle wave of
`t`: with `r = t mod 2G`, `r` when `r ≤ G` and `2G - r` otherwise; `dir` is `+1` when
`r < G` and `-1` otherwise; and the state is periodic with period `2G`. -/
theorem sequencer_progress_triangle (d : CInt → CInt) (rets : Nat → CInt) (m : Mem)
    (wc : Nat) (G : CInt) (hG : 0 < G.val) (hok : ∀ k, 0 ≤ (rets k).val) :
    (∀ fuel, walk_loop d rets G m wc fuel 1 Walk.start
      = ((List.range fuel).map (fun t =>
          dispatch_event d (rets (1 + t)) m wc (run_ticks G t)), false)) ∧
    (∀ t : Nat, (run_ticks G t).current_step.val = triangle G.val t) ∧
    (∀ t : Nat, (run_ticks G t).current_step.val
      = if (t : Int) % (2 * G.val) ≤ G.val then (t : Int) % (2 * G.val)
        else 2 * G.val - (t : Int) % (2 * G.val)) ∧
    (∀ t : Nat, (run_ticks G t).sgn.val
      = if (t : Int) % (2 * G.val) < G.val then 1 else -1) ∧
    (∀ t : Nat, run_ticks G (t + 2 * G.val.toNat) = run_ticks G t) :=
  ⟨fun fuel => walk_loop_no_failure d rets G m wc hok fuel 1 _,
    fun t => (run_ticks_triangle G hG t).1, fun t => (run_ticks_triangle G hG t).1,
    fun t => (run_ticks_triangle G hG t).2, fun t => run_ticks_period G hG t⟩

/-- C15, witness: with goal 3 and every answer 0, `progress` after 4, 7 and 10 ticks is
2, 1 and 2 (the triangle wave 0,1,2,3,2,1,0,1,2,3,2,...), and the state after 10 ticks is
the state after 4. -/
theorem sequencer_progress_triangle_witness :
    (run_ticks (CInt.lit 3) 4).current_step.val = 2 ∧
    (run_ticks (CInt.lit 3) 7).current_step.val = 1 ∧
    (run_ticks (CInt.lit 3) 10).current_step.val = 2 ∧
    run_ticks (CInt.lit 3) (4 + 2 * (CInt.lit 3).val.toNat) = run_ticks (CInt.lit 3) 4 :=
  have h := sequencer_progress_triangle (fun x => x) (fun _ => CInt.lit 0) mem_sample 1
    (CInt.lit 3) (by decide) (fun _ => by show (0 : Int) ≤ (CInt.lit 0).val; decide)
  ⟨(h.2.1 4).trans (by decide), (h.2.1 7).trans (by decide), (h.2.1 10).trans (by decide),
    h.2.2.2.2 4⟩

/-- C18: executed with every `positions[i]` access checked against the slots 0..22,
`mirror_posture`, `init_posture_data`, `send_posture` and `create_biped_motion` never meet
an index outside the array and compute what the unchecked functions compute; the joints
of the mirror map lie in 0..22; and for goal 70 the index with which the loop of `main`
reads `walk_cycle` lies in 0..3 after any number of ticks. -/
theorem array_accesses_in_bounds :
    (∀ (a b : Nat) (m : Mem), mirror_posture_checked a b m = some (mirror_posture a b m)) ∧
    (∀ (p : Nat) (m : Mem), init_posture_data_checked p m = some (init_posture_data p m)) ∧
    (∀ (d : CInt → CInt) (ret : CInt) (p : Posture),
      send_posture_checked d ret p = some (send_posture d ret p)) ∧
    (∀ (steps init_pose : Nat) (m : Mem),
      create_biped_motion_checked steps init_pose m
        = some (create_biped_motion steps init_pose m)) ∧
    (∀ pr ∈ mirror_pairs, pr.1 < MAX_SERVO_ID ∧ pr.2 < MAX_SERVO_ID) ∧
    (∀ n : Nat,
      cycle_slot_checked (phase_index (run_ticks CYCLES_TO_GOAL n).current_step)
        = some (phase_index (run_ticks CYCLES_TO_GOAL n).current_step).val.toNat ∧
      (phase_index (run_ticks CYCLES_TO_GOAL n).current_step).val.toNat < STEP_SIZE) := by
  refine ⟨mirror_posture_checked_eq, init_posture_data_checked_eq, send_posture_checked_eq,
    create_biped_motion_checked_eq, by decide, fun n => ?_⟩
  have h := phase_index_val (run_ticks CYCLES_TO_GOAL n).current_step
  have hlo : 0 ≤ (phase_index (run_ticks CYCLES_TO_GOAL n).current_step).val := by omega
  have hhi : (phase_index (run_ticks CYCLES_TO_GOAL n).current_step).val < 4 := by omega
  refine ⟨?_, ?_⟩
  · unfold cycle_slot_checked
    rw [if_pos ⟨hlo, hhi⟩]
  · show _ < 4
    omega

/-- C13 (as amended): for roundings of the product and of the sum that are monotone, exact
at 0 and at 7500 and off by at most 1 below `2^32` in magnitude: `deg2pulse(0)` is the
center value 7500; for all angles `x ≤ y` at which `deg2pulse` has a result,
`deg2pulse(x) ≤ deg2pulse(y)`; the angles at which it has a result form an interval; and
it has a result at every angle between -72000000 and 72000000. -/
theorem deg2pulse_monotone (round_mul round_add : ℚ → ℚ)
    (hm : Monotone round_mul) (ha : Monotone round_add)
    (hm0 : round_mul 0 = 0) (ha0 : round_add 7500 = 7500)
    (hmacc : ∀ v : ℚ, |v| ≤ 4294967296 → |round_mul v - v| ≤ 1)
    (haacc : ∀ v : ℚ, |v| ≤ 4294967296 → |round_add v - v| ≤ 1) :
    (∃ c, deg2pulse round_mul round_add 0 = some c ∧ c.val = CENTER_VALUE) ∧
    (∀ x y : ℚ, x ≤ y → ∀ px py : CInt, deg2pulse round_mul round_add x = some px →
      deg2pulse round_mul round_add y = some py → px.val ≤ py.val) ∧
    (∀ x z y : ℚ, x ≤ z → z ≤ y → (deg2pulse round_mul round_add x).isSome = true →
      (deg2pulse round_mul round_add y).isSome = true →
      (deg2pulse round_mul round_add z).isSome = true) ∧
    (∀ x y : ℚ, -72000000 ≤ x → x ≤ y → y ≤ 72000000 →
      ∃ px py : CInt, deg2pulse round_mul round_add x = some px ∧
        deg2pulse round_mul round_add y = some py ∧ px.val ≤ py.val) := by
  have hmono : ∀ x y : ℚ, x ≤ y → ∀ px py : CInt, deg2pulse round_mul round_add x = some px →
      deg2pulse round_mul round_add y = some py → px.val ≤ py.val := by
    intro x y hxy px py hx hy
    rw [float_to_int_val _ px hx, float_to_int_val _ py hy]
    exact truncate_mono _ _ (pulse_value_mono round_mul round_add hm ha x y hxy)
  have hdef : ∀ x : ℚ, -72000000 ≤ x → x ≤ 72000000 →
      ∃ p, deg2pulse round_mul round_add x = some p := by
    intro x h1 h2
    have hb := pulse_value_bounds round_mul round_add hmacc haacc x h1 h2
    have ht := truncate_bounds _ 2133367502 hb.1 hb.2
    obtain ⟨p, hp, _⟩ := float_to_int_of_range
      (round_add ((CENTER_VALUE : ℚ) + round_mul (x * STEPS_PER_DEG)))
      ⟨by unfold INT_MIN; omega, by unfold INT_MAX; omega⟩
    exact ⟨p, hp⟩
  refine ⟨?_, hmono, ?_, ?_⟩
  · have hv : round_add ((CENTER_VALUE : ℚ) + round_mul (0 * STEPS_PER_DEG)) = 7500 := by
      rw [zero_mul, hm0, add_zero]
      simpa [CENTER_VALUE] using ha0
    have ht : truncate (7500 : ℚ) = 7500 := by
      unfold truncate
      rw [if_pos (by norm_num)]
      exact_mod_cast Int.floor_intCast (7500 : Int)
    obtain ⟨p, hp, hpv⟩ := float_to_int_of_range (7500 : ℚ)
      (by rw [ht]; exact ⟨by decide, by decide⟩)
    refine ⟨p, ?_, by rw [hpv, ht]; rfl⟩
    unfold deg2pulse
    rw [hv]
    exact hp
  · intro x z y hxz hzy hx hy
    unfold deg2pulse at hx hy ⊢
    rw [float_to_int_isSome] at hx hy ⊢
    have h1 := truncate_mono _ _ (pulse_value_mono round_mul round_add hm ha x z hxz)
    have h2 := truncate_mono _ _ (pulse_value_mono round_mul round_add hm ha z y hzy)
    exact ⟨le_trans hx.1 h1, le_trans h2 hy.2⟩
  · intro x y h1 hxy h2
    obtain ⟨px, hpx⟩ := hdef x h1 (le_trans hxy h2)
    obtain ⟨py, hpy⟩ := hdef y (le_trans h1 hxy) h2
    exact ⟨px, py, hpx, hpy, hmono x y hxy px py hpx hpy⟩

/-- C13, witness: with exact arithmetic for the two roundings, `deg2pulse(0)` is 7500 and
`deg2pulse(-30) ≤ deg2pulse(45)`, both having a result. -/
theorem deg2pulse_monotone_witness :
    (∃ c, deg2pulse id id 0 = some c ∧ c.val = CENTER_VALUE) ∧
    (∃ px py : CInt, deg2pulse id id (-30) = some px ∧ deg2pulse id id 45 = some py ∧
      px.val ≤ py.val) :=
  have h := deg2pulse_monotone id id monotone_id monotone_id rfl rfl
    (fun v _ => by simp) (fun v _ => by simp)
  ⟨h.1, h.2.2.2 (-30) 45 (by norm_num) (by norm_num) (by norm_num)⟩

/-- C13, counterexample: at the angle 134217728 (`2^27`) the product and the sum are
binary64 numbers (numerators below `2^53` over `2^21`), so no rounding takes place; the
sum truncates to 3976878780, above `INT_MAX`, and the conversion to `int` has no result:
`deg2pulse(0) ≤ deg2pulse(134217728)` does not hold. -/
theorem deg2pulse_overflow_counterexample :
    (134217728 : ℚ) * STEPS_PER_DEG = 8340103559936737 / 2 ^ 21 ∧
    (CENTER_VALUE : ℚ) + 134217728 * STEPS_PER_DEG = 8340119288576737 / 2 ^ 21 ∧
    (8340119288576737 : ℚ) < 2 ^ 53 ∧
    truncate ((CENTER_VALUE : ℚ) + 134217728 * STEPS_PER_DEG) = 3976878780 ∧
    INT_MAX < 3976878780 ∧
    deg2pulse id id 134217728 = none ∧
    ¬ ∃ px py : CInt, deg2pulse id id 0 = some px ∧ deg2pulse id id 134217728 = some py ∧
      px.val ≤ py.val := by
  have hprod : (134217728 : ℚ) * STEPS_PER_DEG = 8340103559936737 / 2 ^ 21 := by
    unfold STEPS_PER_DEG; norm_num
  have hsum : (CENTER_VALUE : ℚ) + 134217728 * STEPS_PER_DEG
      = 8340119288576737 / 2 ^ 21 := by
    rw [hprod]; simp only [CENTER_VALUE]; norm_num
  have htr : truncate ((CENTER_VALUE : ℚ) + 134217728 * STEPS_PER_DEG) = 3976878780 := by
    rw [hsum]
    unfold truncate
    rw [if_pos (by norm_num), Int.floor_eq_iff]
    constructor <;> norm_num
  have hnone : deg2pulse id id 134217728 = none := by
    unfold deg2pulse float_to_int
    simp only [id]
    rw [dif_neg]
    rw [htr]
    unfold INT_MAX
    omega
  refine ⟨hprod, hsum, by norm_num, htr, by decide, hnone, ?_⟩
  rintro ⟨px, py, _, hy, _⟩
  rw [hnone] at hy
  cases hy

end Biped
